import Mathlib

set_option maxRecDepth 100000

/-!
# Verification of the CHIP-8 emulator core

Shallow embedding of the `chip8` repository's virtual-machine core:
`src/chip8/hardware.rs` (instruction decoder/executor), `src/chip8.rs`
(VM thread loop and its control events), `src/io.rs` (shared input state),
`src/chip8/screen.rs` (pixel-row access), `src/display_bus.rs` (the
output-effect vocabulary) and the framing of `src/app/emulator_view.rs`.

Machine integers are modelled as `Nat` with explicit `% 2^w` wrapping where
the Rust code uses wrapping arithmetic; `u8`/`u16` fields carry their range
as side invariants in the theorems that need them.  Rust's `RwLock`
`read()`/`try_read()` accesses in the decoder are modelled as always
succeeding (the lock is never poisoned in the source and the decoder only
ever takes read access).  A fallible decode (the `_ => panic!()` arm of
`Hardware::decode`) is modelled by returning `none`.
-/

/-- Screen width in logical pixels (`src/chip8/screen.rs`). -/
def SCREEN_WIDTH : Nat := 64

/-- Screen height in logical pixels (`src/chip8/screen.rs`). -/
def SCREEN_HEIGHT : Nat := 32

/-- Wrap to `u8` range: Rust `wrapping_add`/`<<` on `u8`. -/
def wrap8 (a : Nat) : Nat := a % 256

/-- Wrap to `u16` range. -/
def wrap16 (a : Nat) : Nat := a % 65536

/-- Rust `u8::wrapping_sub` on byte-range naturals. -/
def wrapSub8 (a b : Nat) : Nat := (a % 256 + (256 - b % 256)) % 256

/-- Rust `u16::wrapping_sub` on `u16`-range naturals (used for `pc -= 2`). -/
def wrapSub16 (a b : Nat) : Nat := (a % 65536 + (65536 - b % 65536)) % 65536

/-- Count of leading zero bits of a value regarded as `u16`
(Rust `u16::leading_zeros`): 16 minus the bit length, the bit length being
the number of bit positions `i < 16` with `2 ^ i ≤ a`. -/
def leadingZeros16 (a : Nat) : Nat :=
  16 - (List.range 16).countP (fun i => decide (2 ^ i ≤ a % 65536))

/-- `Generation` from `src/chip8/hardware.rs`: the instruction-quirk profile. -/
inductive Generation where
  | COSMAC : Generation
  | Super : Generation
deriving DecidableEq, Repr

/-- `InputState` from `src/io.rs`: `quit` flag, locally captured key bitmask
`keys`, and the remote client's reported bitmask `client`. -/
structure InputState where
  quit : Bool
  keys : Nat
  client : Nat
deriving DecidableEq, Repr

/-- `InputState::pressed` from `src/io.rs`: local and client masks merged by
bitwise OR. -/
def InputState.pressed (s : InputState) : Nat := s.keys ||| s.client

/-- `egui::Color32` payload as carried by the event vocabulary: four bytes. -/
structure Color32 where
  r : Nat
  g : Nat
  b : Nat
  a : Nat
deriving DecidableEq, Repr

/-- `EmulatorEvents` from `src/chip8.rs`: the control events consumed by the
VM thread loop. -/
inductive EmulatorEvents where
  | ChangeColor : Color32 → EmulatorEvents
  | FpsChange : Nat → EmulatorEvents
  | NextDebugCycle : Nat → EmulatorEvents
  | SetDebug : Bool → EmulatorEvents
  | QuitEmulator : EmulatorEvents
  | DisplaySynced : EmulatorEvents
deriving DecidableEq, Repr

/-- `HostIp` from `src/app.rs` (strings modelled as byte lists). -/
inductive HostIp where
  | Empty : HostIp
  | NotFound : HostIp
  | Ip : List Nat → HostIp
deriving DecidableEq, Repr

/-- `EmulatorKind` from `src/app.rs`. -/
inductive EmulatorKind where
  | Single : EmulatorKind
  | Server : HostIp → EmulatorKind
  | Client : List Nat → EmulatorKind
deriving DecidableEq, Repr

/-- `DebugState` from `src/display_bus.rs`. -/
structure DebugState where
  pc : Nat
  i : Nat
  reg : List Nat
  op : Nat
deriving DecidableEq, Repr

/-- `ClientMessage` from `src/display_bus.rs`. -/
inductive ClientMessage where
  | KeyInput : Nat → ClientMessage
deriving DecidableEq, Repr

/-- `AppEvents` from `src/display_bus.rs`: the Output-Effect/Client-Message
union (`PathBuf` modelled as a byte list). -/
inductive AppEvents where
  | Nop : AppEvents
  | EmulatorEvent : EmulatorEvents → AppEvents
  | ClearScreen : AppEvents
  | DrawSprite : List Nat → Nat → Nat → AppEvents
  | SpawnEmulator : EmulatorKind → Generation → Bool → Option (List Nat) → Nat → AppEvents
  | DebugEmulatorState : DebugState → AppEvents
  | ClientMessage : ClientMessage → AppEvents
deriving DecidableEq, Repr

/-- The built-in font, `FONT` in `src/chip8/hardware.rs` (80 bytes). -/
def FONT : List Nat :=
  [0xF0, 0x90, 0x90, 0x90, 0xF0,
   0x20, 0x60, 0x20, 0x20, 0x70,
   0xF0, 0x10, 0xF0, 0x80, 0xF0,
   0xF0, 0x10, 0xF0, 0x10, 0xF0,
   0x90, 0x90, 0xF0, 0x10, 0x10,
   0xF0, 0x80, 0xF0, 0x10, 0xF0,
   0xF0, 0x80, 0xF0, 0x90, 0xF0,
   0xF0, 0x10, 0x20, 0x40, 0x40,
   0xF0, 0x90, 0xF0, 0x90, 0xF0,
   0xF0, 0x90, 0xF0, 0x10, 0xF0,
   0xF0, 0x90, 0xF0, 0x90, 0x90,
   0xE0, 0x90, 0xE0, 0x90, 0xE0,
   0xF0, 0x80, 0x80, 0x80, 0xF0,
   0xE0, 0x90, 0x90, 0x90, 0xE0,
   0xF0, 0x80, 0xF0, 0x80, 0xF0,
   0xF0, 0x80, 0xF0, 0x80, 0x80]

/-- `Hardware` from `src/chip8/hardware.rs`: the complete VM state.
`stack_frame` is an `i8` in the source, hence `Int` here. -/
structure Hardware where
  memory : List Nat
  stack : List Nat
  stack_frame : Int
  i : Nat
  registers : List Nat
  pc : Nat
  delay_timer : Nat
  sound_timer : Nat
  generation : Generation
  display_sync : Bool
deriving DecidableEq, Repr

/-- `Hardware::default`: font copied to the start of a zeroed 4 KiB memory,
`pc = 0x200`, empty 32-entry stack, `display_sync = true`. -/
def Hardware.default : Hardware :=
  { memory := FONT ++ List.replicate (4096 - 80) 0
    stack := List.replicate 32 0
    stack_frame := 0
    i := 0
    registers := List.replicate 16 0
    pc := 0x200
    delay_timer := 0
    sound_timer := 0
    generation := Generation.Super
    display_sync := true }

/-- `Hardware::load_program`: copy the program bytes to `memory[0x200..]`. -/
def Hardware.load_program (hw : Hardware) (program : List Nat) : Hardware :=
  { hw with memory :=
      hw.memory.take 0x200 ++ program ++ hw.memory.drop (0x200 + program.length) }

/-- `Hardware::set_flag`: write `1` or `0` into register 15. -/
def Hardware.set_flag (hw : Hardware) (isSet : Bool) : Hardware :=
  { hw with registers := hw.registers.set 15 (if isSet then 1 else 0) }

/-- `Hardware::fetch`: big-endian 16-bit word at `memory[pc]`, then `pc += 2`.
Returns the instruction together with the post-fetch state. -/
def Hardware.fetch (hw : Hardware) : Nat × Hardware :=
  ((hw.memory.getD hw.pc 0) * 256 + hw.memory.getD (hw.pc + 1) 0,
   { hw with pc := wrap16 (hw.pc + 2) })

/-- `Hardware::tick_cpu_clock`: saturating decrement of both timers. -/
def Hardware.tick_cpu_clock (hw : Hardware) : Hardware :=
  { hw with delay_timer := hw.delay_timer - 1, sound_timer := hw.sound_timer - 1 }

/-- `screen::pixel_row` from `src/chip8/screen.rs`: the 256-byte slice of row
`y` (4 bytes per pixel, 64 pixels per row); an out-of-range row yields the
empty slice (`get(..).unwrap_or_default()`). -/
def pixel_row (frame : List Nat) (y : Nat) : List Nat :=
  if (y + 1) * (SCREEN_WIDTH * 4) ≤ frame.length then
    (frame.drop (y * (SCREEN_WIDTH * 4))).take (SCREEN_WIDTH * 4)
  else []

/-- `chunks_exact(4)` on a byte list: complete 4-byte pixels, remainder
dropped. -/
def chunks4 : List Nat → List (List Nat)
  | a :: b :: c :: d :: rest => [a, b, c, d] :: chunks4 rest
  | _ => []

/-- One row of the draw instruction's collision test
(`src/chip8/hardware.rs`, the `0xD` arm): pixels of screen row `rowI`
starting at column `x`, eight columns wide, collide when a set sprite bit
lies over a non-black pixel. -/
def rowCollides (frame : List Nat) (x rowI spriteRow : Nat) : Bool :=
  (((chunks4 (pixel_row frame rowI)).drop x).take 8).enum.any
    (fun p => decide (spriteRow &&& (1 <<< (7 - p.1)) ≠ 0) &&
              decide (p.2 ≠ [0, 0, 0, 0]))

/-- The `flip` result of the draw arm's row loop: some row `k < 16` with a
non-zero sprite byte collides at `(x, y + k)`. -/
def drawCollision (frame : List Nat) (x y : Nat) (sprite : List Nat) : Bool :=
  (List.range 16).any (fun k =>
    decide (sprite.getD k 0 ≠ 0) && rowCollides frame x (y + k) (sprite.getD k 0))

/-- The 16-byte sprite read by the draw arm: rows `0..n` from `memory[i..]`,
remaining rows zero. -/
def readSprite (hw : Hardware) (n : Nat) : List Nat :=
  (List.range 16).map (fun k => if k < n then hw.memory.getD (hw.i + k) 0 else 0)

/-- The dispatch of `Hardware::decode` (`src/chip8/hardware.rs`), arm by arm
in source order, on the already-extracted nibbles `op, x, y, n` and derived
values `nn`, `nnn`.  The Rust tuple-pattern `match` is rendered as the
equivalent ordered conditional chain.  `frame` is the shared pixel buffer's
byte content, `input` the shared input state, `rand` the random byte drawn
by opcode `C`.  The `_ => panic!()` arm is `none`. -/
def decodeMatch (hw : Hardware) (op x y n nn nnn : Nat) (frame : List Nat)
    (input : InputState) (rand : Nat) : Option (Hardware × List AppEvents) :=
  -- (0x0, 0x0, 0xe, 0x0): clear screen
  if op = 0x0 ∧ x = 0x0 ∧ y = 0xe ∧ n = 0x0 then
    some (hw, [AppEvents.ClearScreen])
  -- (0x0, 0x0, 0xe, 0xe): return from subroutine
  else if op = 0x0 ∧ x = 0x0 ∧ y = 0xe ∧ n = 0xe then
    let sf := hw.stack_frame - 1
    some ({ hw with stack_frame := sf, pc := hw.stack.getD sf.toNat 0 }, [])
  -- (0x1, _, _, _): jump
  else if op = 0x1 then
    some ({ hw with pc := nnn }, [])
  -- (0x2, _, _, _): push subroutine
  else if op = 0x2 then
    some ({ hw with stack := hw.stack.set hw.stack_frame.toNat hw.pc,
                    stack_frame := hw.stack_frame + 1,
                    pc := nnn }, [])
  -- (0x3, _, _, _): skip if reg[x] == nn
  else if op = 0x3 then
    some (if hw.registers.getD x 0 = nn then { hw with pc := wrap16 (hw.pc + 2) } else hw, [])
  -- (0x4, _, _, _): skip if reg[x] != nn
  else if op = 0x4 then
    some (if hw.registers.getD x 0 ≠ nn then { hw with pc := wrap16 (hw.pc + 2) } else hw, [])
  -- (0x5, _, _, 0): skip if reg[x] == reg[y]
  else if op = 0x5 ∧ n = 0x0 then
    some (if hw.registers.getD x 0 = hw.registers.getD y 0 then
            { hw with pc := wrap16 (hw.pc + 2) } else hw, [])
  -- (0x6, _, _, _): set register
  else if op = 0x6 then
    some ({ hw with registers := hw.registers.set x nn }, [])
  -- (0x7, _, _, _): add value to register (wrapping)
  else if op = 0x7 then
    some ({ hw with registers := hw.registers.set x (wrap8 (hw.registers.getD x 0 + nn)) }, [])
  -- (0x8, _, _, 0): copy
  else if op = 0x8 ∧ n = 0x0 then
    some ({ hw with registers := hw.registers.set x (hw.registers.getD y 0) }, [])
  -- (0x8, _, _, 1): OR
  else if op = 0x8 ∧ n = 0x1 then
    some ({ hw with registers :=
      hw.registers.set x (hw.registers.getD x 0 ||| hw.registers.getD y 0) }, [])
  -- (0x8, _, _, 2): AND
  else if op = 0x8 ∧ n = 0x2 then
    some ({ hw with registers :=
      hw.registers.set x (hw.registers.getD x 0 &&& hw.registers.getD y 0) }, [])
  -- (0x8, _, _, 3): XOR
  else if op = 0x8 ∧ n = 0x3 then
    some ({ hw with registers :=
      hw.registers.set x (hw.registers.getD x 0 ^^^ hw.registers.getD y 0) }, [])
  -- (0x8, _, _, 4): add with carry flag (checked_add().is_none() detects carry)
  else if op = 0x8 ∧ n = 0x4 then
    let overflow := decide (255 < hw.registers.getD x 0 + hw.registers.getD y 0)
    let hw1 := ({ hw with registers := hw.registers.set x (wrap8 (hw.registers.getD x 0 + hw.registers.getD y 0)) })
    some (hw1.set_flag overflow, [])
  -- (0x8, _, _, 5): subtract with no-borrow flag
  else if op = 0x8 ∧ n = 0x5 then
    let flag := decide (hw.registers.getD y 0 ≤ hw.registers.getD x 0)
    let hw1 := ({ hw with registers := hw.registers.set x (wrapSub8 (hw.registers.getD x 0) (hw.registers.getD y 0)) })
    some (hw1.set_flag flag, [])
  -- (0x8, _, _, 6): shift right; COSMAC first copies reg[y] into reg[x]
  else if op = 0x8 ∧ n = 0x6 then
    let hw1 := match hw.generation with
      | Generation.COSMAC =>
          { hw with registers := hw.registers.set x (hw.registers.getD y 0) }
      | Generation.Super => hw
    let flag := decide (hw1.registers.getD x 0 &&& 1 = 1)
    let hw2 := ({ hw1 with registers := hw1.registers.set x (hw1.registers.getD x 0 >>> 1) })
    some (hw2.set_flag flag, [])
  -- (0x8, _, _, 7): reverse subtract
  else if op = 0x8 ∧ n = 0x7 then
    let flag := decide (hw.registers.getD x 0 ≤ hw.registers.getD y 0)
    let hw1 := ({ hw with registers := hw.registers.set x (wrapSub8 (hw.registers.getD y 0) (hw.registers.getD x 0)) })
    some (hw1.set_flag flag, [])
  -- (0x8, _, _, 0xe): shift left; COSMAC first copies reg[y] into reg[x]
  else if op = 0x8 ∧ n = 0xe then
    let hw1 := match hw.generation with
      | Generation.COSMAC =>
          { hw with registers := hw.registers.set x (hw.registers.getD y 0) }
      | Generation.Super => hw
    let flag := decide (hw1.registers.getD x 0 >>> 7 = 1)
    let hw2 := ({ hw1 with registers := hw1.registers.set x (wrap8 (hw1.registers.getD x 0 <<< 1)) })
    some (hw2.set_flag flag, [])
  -- (0x9, _, _, 0): skip if reg[x] != reg[y]
  else if op = 0x9 ∧ n = 0x0 then
    some (if hw.registers.getD x 0 ≠ hw.registers.getD y 0 then
            { hw with pc := wrap16 (hw.pc + 2) } else hw, [])
  -- (0xa, _, _, _): set index register
  else if op = 0xa then
    some ({ hw with i := nnn }, [])
  -- (0xb, _, _, _): jump with offset, generation-dependent
  else if op = 0xb then
    some (match hw.generation with
      | Generation.COSMAC => { hw with pc := hw.registers.getD 0 0 + nnn }
      | Generation.Super => { hw with pc := hw.registers.getD x 0 + nnn }, [])
  -- (0xc, _, _, _): random byte AND nn
  else if op = 0xc then
    some ({ hw with registers := hw.registers.set x (rand &&& nn) }, [])
  -- (0xd, reg_x, reg_y, sprite_height): draw
  else if op = 0xd then
    if !hw.display_sync then
      some ({ hw with pc := wrapSub16 hw.pc 2 }, [])
    else
      let hw1 := { hw with display_sync := false }
      let px := hw.registers.getD x 0 % SCREEN_WIDTH
      let py := hw.registers.getD y 0 % SCREEN_HEIGHT
      let sprite := readSprite hw n
      -- pixel_buffer.read() modelled as succeeding
      some (hw1.set_flag (drawCollision frame px py sprite),
            [AppEvents.DrawSprite sprite px py])
  -- (0xe, _, 9, 0xe): skip on key (source compares the masked bit to 1)
  else if op = 0xe ∧ y = 0x9 ∧ n = 0xe then
    let key := hw.registers.getD x 0 % 16
    some (if input.keys &&& (1 <<< key) = 1 then
            { hw with pc := wrap16 (hw.pc + 2) } else hw, [])
  -- (0xe, _, 0xa, 1): skip on no key (source compares the masked bit to 1)
  else if op = 0xe ∧ y = 0xa ∧ n = 0x1 then
    let key := hw.registers.getD x 0 % 16
    some (if input.keys &&& (1 <<< key) ≠ 1 then
            { hw with pc := wrap16 (hw.pc + 2) } else hw, [])
  -- (0xf, _, 0, 7): read delay timer
  else if op = 0xf ∧ y = 0x0 ∧ n = 0x7 then
    some ({ hw with registers := hw.registers.set x hw.delay_timer }, [])
  -- (0xf, _, 1, 5): set delay timer
  else if op = 0xf ∧ y = 0x1 ∧ n = 0x5 then
    some ({ hw with delay_timer := hw.registers.getD x 0 }, [])
  -- (0xf, _, 1, 8): set sound timer
  else if op = 0xf ∧ y = 0x1 ∧ n = 0x8 then
    some ({ hw with sound_timer := hw.registers.getD x 0 }, [])
  -- (0xf, _, 1, 0xe): add to index (wrapping)
  else if op = 0xf ∧ y = 0x1 ∧ n = 0xe then
    some ({ hw with i := wrap16 (hw.i + hw.registers.getD x 0) }, [])
  -- (0xf, _, 0, 0xa): block for keypress (try_read() modelled as succeeding;
  -- the source stores keys.leading_zeros())
  else if op = 0xf ∧ y = 0x0 ∧ n = 0xa then
    if input.keys ≠ 0 then
      some ({ hw with registers := hw.registers.set x (leadingZeros16 input.keys) }, [])
    else
      some ({ hw with pc := wrapSub16 hw.pc 2 }, [])
  -- (0xf, _, 2, 9): font glyph address
  else if op = 0xf ∧ y = 0x2 ∧ n = 0x9 then
    some ({ hw with i := 5 * hw.registers.getD x 0 }, [])
  -- (0xf, _, 3, 3): BCD
  else if op = 0xf ∧ y = 0x3 ∧ n = 0x3 then
    let number := hw.registers.getD x 0
    some ({ hw with memory := ((hw.memory.set hw.i (number / 100)).set (hw.i + 1) (number % 100 / 10)).set (hw.i + 2) (number % 10) }, [])
  -- (0xf, _, 5, 5): store registers 0..=x
  else if op = 0xf ∧ y = 0x5 ∧ n = 0x5 then
    let mem := (List.range (x + 1)).foldl
      (fun m k => m.set (hw.i + k) (hw.registers.getD k 0)) hw.memory
    some (match hw.generation with
      | Generation.COSMAC =>
          { hw with memory := mem, i := wrap16 (hw.i + x + 1) }
      | Generation.Super => { hw with memory := mem }, [])
  -- (0xf, _, 6, 5): load registers 0..=x
  else if op = 0xf ∧ y = 0x6 ∧ n = 0x5 then
    let regs := (List.range (x + 1)).foldl
      (fun r k => r.set k (hw.memory.getD (hw.i + k) 0)) hw.registers
    some (match hw.generation with
      | Generation.COSMAC =>
          { hw with registers := regs, i := wrap16 (hw.i + x + 1) }
      | Generation.Super => { hw with registers := regs }, [])
  -- _ => fatal unimplemented-opcode fault
  else
    none

/-- `Hardware::decode`: extract the four nibbles and the derived values from
the instruction word and dispatch.  The source's bit operations
`(instr & 0xFF00) >> 8`, `instr & 0x00FF`, `(b0 & 0xF0) >> 4`, `b0 & 0x0F`,
`(b1 & 0xF0) >> 4`, `b1 & 0x0F`, `instr & 0x0FFF` are written as their
arithmetic equivalents on a 16-bit word. -/
def Hardware.decode (hw : Hardware) (instr : Nat) (frame : List Nat)
    (input : InputState) (rand : Nat) : Option (Hardware × List AppEvents) :=
  let b0 := instr / 256 % 256
  let b1 := instr % 256
  let op := b0 / 16
  let x := b0 % 16
  let y := b1 / 16
  let n := b1 % 16
  let nn := b1
  let nnn := instr % 4096
  decodeMatch hw op x y n nn nnn frame input rand

/-- One iteration of `Chip8::run_hardware_cycle`: fetch then decode. -/
def runHardwareCycle (hw : Hardware) (frame : List Nat) (input : InputState)
    (rand : Nat) : Option (Hardware × List AppEvents) :=
  let fetched := hw.fetch
  Hardware.decode fetched.2 fetched.1 frame input rand

/-- Iterated hardware cycles, accumulating the emitted output effects. -/
def runCycles : Nat → Hardware → List Nat → InputState → Nat →
    Option (Hardware × List AppEvents)
  | 0, hw, _, _, _ => some (hw, [])
  | k + 1, hw, frame, input, rand =>
    match runHardwareCycle hw frame input rand with
    | none => none
    | some (hw1, evs) =>
      match runCycles k hw1 frame input rand with
      | none => none
      | some (hw2, evs2) => some (hw2, evs ++ evs2)

/-- The documented opcode-table patterns of spec §4.1, as a predicate on the
four instruction nibbles.  This follows the SPEC's table (for comparing the
decoder's fault domain against it), not the decoder. -/
def specTableMatches (op x y n : Nat) : Prop :=
  (op = 0x0 ∧ x = 0x0 ∧ y = 0xe ∧ n = 0x0) ∨
  (op = 0x0 ∧ x = 0x0 ∧ y = 0xe ∧ n = 0xe) ∨
  op = 0x1 ∨ op = 0x2 ∨ op = 0x3 ∨ op = 0x4 ∨
  (op = 0x5 ∧ n = 0x0) ∨ op = 0x6 ∨ op = 0x7 ∨
  (op = 0x8 ∧ (n ≤ 0x7 ∨ n = 0xe)) ∨
  (op = 0x9 ∧ n = 0x0) ∨ op = 0xa ∨ op = 0xb ∨ op = 0xc ∨ op = 0xd ∨
  (op = 0xe ∧ y = 0x9 ∧ n = 0xe) ∨ (op = 0xe ∧ y = 0xa ∧ n = 0x1) ∨
  (op = 0xf ∧ y = 0x0 ∧ n = 0x7) ∨ (op = 0xf ∧ y = 0x1 ∧ n = 0x5) ∨
  (op = 0xf ∧ y = 0x1 ∧ n = 0x8) ∨ (op = 0xf ∧ y = 0x1 ∧ n = 0xe) ∨
  (op = 0xf ∧ y = 0x0 ∧ n = 0xa) ∨ (op = 0xf ∧ y = 0x2 ∧ n = 0x9) ∨
  (op = 0xf ∧ y = 0x3 ∧ n = 0x3) ∨ (op = 0xf ∧ y = 0x5 ∧ n = 0x5) ∨
  (op = 0xf ∧ y = 0x6 ∧ n = 0x5)

instance specTableMatches.dec (op x y n : Nat) : Decidable (specTableMatches op x y n) := by
  unfold specTableMatches
  infer_instance

/-- `specTableMatches` on a full instruction word, with the same nibble
extraction as `Hardware.decode`. -/
def specTableMatchesInstr (instr : Nat) : Prop :=
  specTableMatches (instr / 256 % 256 / 16) (instr / 256 % 256 % 16)
    (instr % 256 / 16) (instr % 256 % 16)

instance specTableMatchesInstr.dec (instr : Nat) : Decidable (specTableMatchesInstr instr) := by
  unfold specTableMatchesInstr
  infer_instance

/-- `Hardware::set_generation`. -/
def Hardware.set_generation (hw : Hardware) (g : Generation) : Hardware :=
  { hw with generation := g }

/-- The hardware state `Chip8::new` builds: default hardware, generation
set, program loaded at `0x200`. -/
def chip8Init (g : Generation) (program : List Nat) : Hardware :=
  (Hardware.default.set_generation g).load_program program

/-- The roles that run a local VM loop (spec §2, §4.4): standalone `Single`
and session `Host`.  The `Client` role has no local VM loop. -/
inductive VmRole where
  | Single : VmRole
  | Host : VmRole
deriving DecidableEq, Repr

/-- Effect of one control event on the VM hardware, from
`Chip8::handle_event` (`src/chip8.rs`): only `DisplaySynced` touches the
`Hardware` value (restoring the display credit); the remaining events
change the runner/colour/fps configuration or quit the loop and leave the
hardware untouched. -/
def handleEventHw : EmulatorEvents → Hardware → Hardware
  | EmulatorEvents.DisplaySynced, hw => { hw with display_sync := true }
  | _, hw => hw

/-- Is this output effect a draw-sprite effect? -/
def isDrawSprite : AppEvents → Bool
  | AppEvents.DrawSprite _ _ _ => true
  | _ => false

/-- Number of draw-sprite effects in an output-effect queue. -/
def countDraws (l : List AppEvents) : Nat := (l.filter isDrawSprite).length

/-- Is this control event the `DisplaySynced` acknowledgment? -/
def isSynced : EmulatorEvents → Bool
  | EmulatorEvents.DisplaySynced => true
  | _ => false

/-- Number of queued `DisplaySynced` acknowledgments in a control queue. -/
def countSynced (l : List EmulatorEvents) : Nat := (l.filter isSynced).length

/-- `EmulatorView::send` (`src/app/emulator_view.rs` lines 34–41) as the
list of control events actually delivered to the VM loop's channel: a
`Host` forwards the event to its sender, while the `Single` arm drops it. -/
def viewSend (r : VmRole) (e : EmulatorEvents) : List EmulatorEvents :=
  match r with
  | VmRole.Host => [e]
  | VmRole.Single => []

/-- Control events the app's event-loop handler (`src/app.rs`,
`Event::UserEvent`) sends to the VM loop when it consumes one output
effect: a draw-sprite effect is applied to the pixel buffer and answered
with `DisplaySynced` through `EmulatorView::send`; a wrapped
`EmulatorEvent` is forwarded through `EmulatorView::send`; every other
effect sends nothing. -/
def appForward (r : VmRole) : AppEvents → List EmulatorEvents
  | AppEvents.DrawSprite _ _ _ => viewSend r EmulatorEvents.DisplaySynced
  | AppEvents.EmulatorEvent e => viewSend r e
  | _ => []

/-- The control events `src/app/ui.rs` can originate (it never sends
`DisplaySynced` or `QuitEmulator` through the effect bus). -/
def uiAllowed : EmulatorEvents → Bool
  | EmulatorEvents.SetDebug _ => true
  | EmulatorEvents.ChangeColor _ => true
  | EmulatorEvents.FpsChange _ => true
  | EmulatorEvents.NextDebugCycle _ => true
  | _ => false

/-- Global state of the VM-loop/renderer system for one role instance:
the VM hardware, the pending output effects (the winit user-event queue
from the VM thread to the app's event loop), the pending control events
(the mpsc channel from the app to the VM loop), and the history counter
`unacked` — the number of draw-sprite effects the VM has emitted whose
display-synchronized acknowledgment the VM loop has not yet processed. -/
structure SysState where
  hw : Hardware
  effects : List AppEvents
  controls : List EmulatorEvents
  unacked : Nat
deriving Repr

/-- Initial system state for one role instance (`spawn_emulator` in
`src/app.rs` / `Chip8::new`): freshly initialized hardware, empty queues,
no draw awaiting acknowledgment. -/
def initSys (g : Generation) (program : List Nat) : SysState :=
  { hw := chip8Init g program, effects := [], controls := [], unacked := 0 }

/-- One interleaved step of the VM-loop/renderer system in role `r`
(spec §4.3/§4.4, `Chip8::run`, `App::run`):

* `vmCycle` — the VM loop runs one fetch-decode cycle
  (`Chip8::run_hardware_cycle`) against the current frame-buffer bytes,
  input state and random byte, appending the emitted output effects;
  `unacked` grows by the number of emitted draw-sprite effects.
* `vmControl` — the VM loop drains one control event
  (`Chip8::handle_event`); processing `DisplaySynced` settles one
  outstanding draw.
* `vmTick` — the scheduler's timer tick (`Hardware::tick_cpu_clock`).
* `vmDebug` — the debug snapshot published after a debug cycle.
* `appEffect` — the app's event loop consumes the oldest output effect
  and sends back whatever `appForward` dictates.
* `uiEvent` — the UI injects one of its control events, wrapped as
  `AppEvents::EmulatorEvent`.
* `clientKeys` — the host's relay thread forwards a client-originated
  message into the effect bus.
-/
inductive SysStep (r : VmRole) : SysState → SysState → Prop where
  | vmCycle (s : SysState) (frame : List Nat) (input : InputState) (rand : Nat)
      (hw' : Hardware) (evs : List AppEvents) :
      runHardwareCycle s.hw frame input rand = some (hw', evs) →
      SysStep r s { hw := hw', effects := s.effects ++ evs,
                    controls := s.controls, unacked := s.unacked + countDraws evs }
  | vmControl (s : SysState) (e : EmulatorEvents) (rest : List EmulatorEvents) :
      s.controls = e :: rest →
      SysStep r s { hw := handleEventHw e s.hw, effects := s.effects,
                    controls := rest,
                    unacked := s.unacked - (if isSynced e then 1 else 0) }
  | vmTick (s : SysState) :
      SysStep r s { s with hw := s.hw.tick_cpu_clock }
  | vmDebug (s : SysState) (d : DebugState) :
      SysStep r s { s with effects := s.effects ++ [AppEvents.DebugEmulatorState d] }
  | appEffect (s : SysState) (ev : AppEvents) (rest : List AppEvents) :
      s.effects = ev :: rest →
      SysStep r s { hw := s.hw, effects := rest,
                    controls := s.controls ++ appForward r ev, unacked := s.unacked }
  | uiEvent (s : SysState) (e : EmulatorEvents) :
      uiAllowed e = true →
      SysStep r s { s with effects := s.effects ++ [AppEvents.EmulatorEvent e] }
  | clientKeys (s : SysState) (m : ClientMessage) :
      SysStep r s { s with effects := s.effects ++ [AppEvents.ClientMessage m] }

/-- Reachability of the VM-loop/renderer system from the initial state. -/
def SysReachable (r : VmRole) (g : Generation) (program : List Nat)
    (s : SysState) : Prop :=
  Relation.ReflTransGen (SysStep r) (initSys g program) s

/-- The credit-protocol invariant: the display-sync credit is present
exactly when no draw is outstanding; at most one draw is ever outstanding;
queued draw effects and queued acknowledgments are each backed by an
outstanding draw; and no spoofed acknowledgment rides the effect bus. -/
def SysInv (s : SysState) : Prop :=
  (s.hw.display_sync = true ↔ s.unacked = 0) ∧
  s.unacked ≤ 1 ∧
  countDraws s.effects + countSynced s.controls ≤ s.unacked ∧
  (∀ e ∈ s.effects, e ≠ AppEvents.EmulatorEvent EmulatorEvents.DisplaySynced)

/-- Little-endian byte encoding of `v` in `k` bytes (fixed-width integer
serialization of the wire codec). -/
def natToLE : Nat → Nat → List Nat
  | 0, _ => []
  | k + 1, v => v % 256 :: natToLE k (v / 256)

/-- Read `k` little-endian bytes from the front of `l`; the value and the
remaining bytes. -/
def natFromLE : Nat → List Nat → Option (Nat × List Nat)
  | 0, l => some (0, l)
  | _ + 1, [] => none
  | k + 1, b :: l =>
    match natFromLE k l with
    | some (v, rest) => some (b + 256 * v, rest)
    | none => none

/-- `usize::to_be_bytes` as used by `HostView::send_over_tcp`
(`src/app/emulator_view.rs`): the 8-byte big-endian frame-length prefix. -/
def natToBE8 (v : Nat) : List Nat := (natToLE 8 v).reverse

/-- Read the 8-byte big-endian length prefix from the front of `l`. -/
def natFromBE8 (l : List Nat) : Option (Nat × List Nat) :=
  if 8 ≤ l.length then
    some ((l.take 8).foldl (fun acc b => acc * 256 + b) 0, l.drop 8)
  else none

/-- Read exactly `k` raw bytes. -/
def readBytes (k : Nat) (l : List Nat) : Option (List Nat × List Nat) :=
  if k ≤ l.length then some (l.take k, l.drop k) else none

/-- Modelled from the spec: the wire payload is "a self-describing
serialization of the Output-Effect/Client-Message union (tagged variant)".
The serializer itself (the `bincode` crate used by
`HostView::send_over_tcp`) is not part of this repository's sources, so the
encoding is modelled: each enum value is a 4-byte little-endian variant
index followed by its fields, integers are fixed-width little-endian,
booleans one byte, byte strings (`String`/`PathBuf`) an 8-byte length
prefix plus raw bytes, options a one-byte tag, fixed 16-byte arrays raw.
Byte-string encoding. -/
def serBytes (s : List Nat) : List Nat := natToLE 8 s.length ++ s

/-- Modelled from the spec: serialization of `Generation`. -/
def serGeneration : Generation → List Nat
  | Generation.COSMAC => natToLE 4 0
  | Generation.Super => natToLE 4 1

/-- Modelled from the spec: serialization of `egui::Color32` (four raw
bytes). -/
def serColor32 (c : Color32) : List Nat := [c.r, c.g, c.b, c.a]

/-- Modelled from the spec: serialization of `EmulatorEvents`. -/
def serEmulatorEvents : EmulatorEvents → List Nat
  | EmulatorEvents.ChangeColor c => natToLE 4 0 ++ serColor32 c
  | EmulatorEvents.FpsChange fps => natToLE 4 1 ++ natToLE 4 fps
  | EmulatorEvents.NextDebugCycle k => natToLE 4 2 ++ natToLE 8 k
  | EmulatorEvents.SetDebug b => natToLE 4 3 ++ [if b then 1 else 0]
  | EmulatorEvents.QuitEmulator => natToLE 4 4
  | EmulatorEvents.DisplaySynced => natToLE 4 5

/-- Modelled from the spec: serialization of `HostIp`. -/
def serHostIp : HostIp → List Nat
  | HostIp.Empty => natToLE 4 0
  | HostIp.NotFound => natToLE 4 1
  | HostIp.Ip s => natToLE 4 2 ++ serBytes s

/-- Modelled from the spec: serialization of `EmulatorKind`. -/
def serEmulatorKind : EmulatorKind → List Nat
  | EmulatorKind.Single => natToLE 4 0
  | EmulatorKind.Server ip => natToLE 4 1 ++ serHostIp ip
  | EmulatorKind.Client s => natToLE 4 2 ++ serBytes s

/-- Modelled from the spec: serialization of `Option (List Nat)` (the
`Option<PathBuf>` field). -/
def serOptBytes : Option (List Nat) → List Nat
  | none => [0]
  | some s => 1 :: serBytes s

/-- Modelled from the spec: serialization of `DebugState`. -/
def serDebugState (d : DebugState) : List Nat :=
  natToLE 2 d.pc ++ natToLE 2 d.i ++ d.reg ++ natToLE 2 d.op

/-- Modelled from the spec: serialization of `ClientMessage`. -/
def serClientMessage : ClientMessage → List Nat
  | ClientMessage.KeyInput k => natToLE 4 0 ++ natToLE 2 k

/-- Modelled from the spec: serialization of the `AppEvents` union. -/
def serAppEvents : AppEvents → List Nat
  | AppEvents.Nop => natToLE 4 0
  | AppEvents.EmulatorEvent e => natToLE 4 1 ++ serEmulatorEvents e
  | AppEvents.ClearScreen => natToLE 4 2
  | AppEvents.DrawSprite sprite x y => natToLE 4 3 ++ sprite ++ [x, y]
  | AppEvents.SpawnEmulator kind g dbg path fps =>
    natToLE 4 4 ++ serEmulatorKind kind ++ serGeneration g ++
      [if dbg then 1 else 0] ++ serOptBytes path ++ natToLE 4 fps
  | AppEvents.DebugEmulatorState d => natToLE 4 5 ++ serDebugState d
  | AppEvents.ClientMessage m => natToLE 4 6 ++ serClientMessage m

/-- Modelled from the spec: deserialization of a byte string. -/
def desBytes (l : List Nat) : Option (List Nat × List Nat) :=
  match natFromLE 8 l with
  | some (len, rest) => readBytes len rest
  | none => none

/-- Modelled from the spec: deserialization of `Generation`. -/
def desGeneration (l : List Nat) : Option (Generation × List Nat) :=
  match natFromLE 4 l with
  | none => none
  | some (tag, rest) =>
    if tag = 0 then some (Generation.COSMAC, rest)
    else if tag = 1 then some (Generation.Super, rest)
    else none

/-- Modelled from the spec: deserialization of `egui::Color32`. -/
def desColor32 (l : List Nat) : Option (Color32 × List Nat) :=
  match l with
  | r :: g :: b :: a :: rest => some (⟨r, g, b, a⟩, rest)
  | _ => none

/-- Modelled from the spec: deserialization of a boolean byte. -/
def desBool (l : List Nat) : Option (Bool × List Nat) :=
  match l with
  | 0 :: rest => some (false, rest)
  | 1 :: rest => some (true, rest)
  | _ => none

/-- Modelled from the spec: deserialization of `EmulatorEvents`. -/
def desEmulatorEvents (l : List Nat) : Option (EmulatorEvents × List Nat) :=
  match natFromLE 4 l with
  | none => none
  | some (tag, rest) =>
    if tag = 0 then
      match desColor32 rest with
      | some (c, rest') => some (EmulatorEvents.ChangeColor c, rest')
      | none => none
    else if tag = 1 then
      match natFromLE 4 rest with
      | some (fps, rest') => some (EmulatorEvents.FpsChange fps, rest')
      | none => none
    else if tag = 2 then
      match natFromLE 8 rest with
      | some (k, rest') => some (EmulatorEvents.NextDebugCycle k, rest')
      | none => none
    else if tag = 3 then
      match desBool rest with
      | some (b, rest') => some (EmulatorEvents.SetDebug b, rest')
      | none => none
    else if tag = 4 then some (EmulatorEvents.QuitEmulator, rest)
    else if tag = 5 then some (EmulatorEvents.DisplaySynced, rest)
    else none

/-- Modelled from the spec: deserialization of `HostIp`. -/
def desHostIp (l : List Nat) : Option (HostIp × List Nat) :=
  match natFromLE 4 l with
  | none => none
  | some (tag, rest) =>
    if tag = 0 then some (HostIp.Empty, rest)
    else if tag = 1 then some (HostIp.NotFound, rest)
    else if tag = 2 then
      match desBytes rest with
      | some (s, rest') => some (HostIp.Ip s, rest')
      | none => none
    else none

/-- Modelled from the spec: deserialization of `EmulatorKind`. -/
def desEmulatorKind (l : List Nat) : Option (EmulatorKind × List Nat) :=
  match natFromLE 4 l with
  | none => none
  | some (tag, rest) =>
    if tag = 0 then some (EmulatorKind.Single, rest)
    else if tag = 1 then
      match desHostIp rest with
      | some (ip, rest') => some (EmulatorKind.Server ip, rest')
      | none => none
    else if tag = 2 then
      match desBytes rest with
      | some (s, rest') => some (EmulatorKind.Client s, rest')
      | none => none
    else none

/-- Modelled from the spec: deserialization of `Option (List Nat)`. -/
def desOptBytes (l : List Nat) : Option (Option (List Nat) × List Nat) :=
  match l with
  | 0 :: rest => some (none, rest)
  | 1 :: rest =>
    match desBytes rest with
    | some (s, rest') => some (some s, rest')
    | none => none
  | _ => none

/-- Modelled from the spec: deserialization of `DebugState`. -/
def desDebugState (l : List Nat) : Option (DebugState × List Nat) :=
  match natFromLE 2 l with
  | some (pc, r1) =>
    match natFromLE 2 r1 with
    | some (i, r2) =>
      match readBytes 16 r2 with
      | some (reg, r3) =>
        match natFromLE 2 r3 with
        | some (op, r4) => some (⟨pc, i, reg, op⟩, r4)
        | none => none
      | none => none
    | none => none
  | none => none

/-- Modelled from the spec: deserialization of `ClientMessage`. -/
def desClientMessage (l : List Nat) : Option (ClientMessage × List Nat) :=
  match natFromLE 4 l with
  | none => none
  | some (tag, rest) =>
    if tag = 0 then
      match natFromLE 2 rest with
      | some (k, rest') => some (ClientMessage.KeyInput k, rest')
      | none => none
    else none

/-- Modelled from the spec: deserialization of the `AppEvents` union. -/
def desAppEvents (l : List Nat) : Option (AppEvents × List Nat) :=
  match natFromLE 4 l with
  | none => none
  | some (tag, rest) =>
    if tag = 0 then some (AppEvents.Nop, rest)
    else if tag = 1 then
      match desEmulatorEvents rest with
      | some (e, rest') => some (AppEvents.EmulatorEvent e, rest')
      | none => none
    else if tag = 2 then some (AppEvents.ClearScreen, rest)
    else if tag = 3 then
      match readBytes 16 rest with
      | some (sprite, r1) =>
        match r1 with
        | x :: y :: r2 => some (AppEvents.DrawSprite sprite x y, r2)
        | _ => none
      | none => none
    else if tag = 4 then
      match desEmulatorKind rest with
      | some (kind, r1) =>
        match desGeneration r1 with
        | some (g, r2) =>
          match desBool r2 with
          | some (dbg, r3) =>
            match desOptBytes r3 with
            | some (path, r4) =>
              match natFromLE 4 r4 with
              | some (fps, r5) => some (AppEvents.SpawnEmulator kind g dbg path fps, r5)
              | none => none
            | none => none
          | none => none
        | none => none
      | none => none
    else if tag = 5 then
      match desDebugState rest with
      | some (d, rest') => some (AppEvents.DebugEmulatorState d, rest')
      | none => none
    else if tag = 6 then
      match desClientMessage rest with
      | some (m, rest') => some (AppEvents.ClientMessage m, rest')
      | none => none
    else none

/-- `HostView::send_over_tcp` framing (`src/app/emulator_view.rs` lines
139–151): the message put on the wire is the payload's byte length as an
8-byte big-endian prefix, followed by the payload. -/
def frameMessage (e : AppEvents) : List Nat :=
  natToBE8 (serAppEvents e).length ++ serAppEvents e

/-- Modelled from the spec: the reader side (`receive_event_over_tcp`,
whose definition is not among the sources) — read the 8-byte big-endian
length, take exactly that many payload bytes and deserialize them,
requiring the payload to be consumed exactly. -/
def readFramed (l : List Nat) : Option AppEvents :=
  match natFromBE8 l with
  | some (len, rest) =>
    match readBytes len rest with
    | some (payload, _) =>
      match desAppEvents payload with
      | some (e, leftover) => if leftover = [] then some e else none
      | none => none
    | none => none
  | none => none

/-- Range condition on a `HostIp` value (address-space-bounded string). -/
def wfIp : HostIp → Prop
  | HostIp.Ip s => s.length < 2 ^ 32
  | _ => True

/-- Range condition on an `EmulatorKind` value. -/
def wfKind : EmulatorKind → Prop
  | EmulatorKind.Server ip => wfIp ip
  | EmulatorKind.Client s => s.length < 2 ^ 32
  | EmulatorKind.Single => True

/-- Range condition on an `Option<PathBuf>` value. -/
def wfPath : Option (List Nat) → Prop
  | none => True
  | some s => s.length < 2 ^ 32

/-- Range/shape side conditions on an `AppEvents` value that hold of every
value the Rust types can represent (`u8`/`u16`/`u32`/`usize` field ranges,
fixed 16-entry arrays, address-space-bounded string lengths). -/
def wfAppEvents : AppEvents → Prop
  | AppEvents.Nop => True
  | AppEvents.EmulatorEvent (EmulatorEvents.ChangeColor _) => True
  | AppEvents.EmulatorEvent (EmulatorEvents.FpsChange fps) => fps < 2 ^ 32
  | AppEvents.EmulatorEvent (EmulatorEvents.NextDebugCycle k) => k < 2 ^ 64
  | AppEvents.EmulatorEvent (EmulatorEvents.SetDebug _) => True
  | AppEvents.EmulatorEvent EmulatorEvents.QuitEmulator => True
  | AppEvents.EmulatorEvent EmulatorEvents.DisplaySynced => True
  | AppEvents.ClearScreen => True
  | AppEvents.DrawSprite sprite _ _ => sprite.length = 16
  | AppEvents.SpawnEmulator kind _ _ path fps =>
    wfKind kind ∧ wfPath path ∧ fps < 2 ^ 32
  | AppEvents.DebugEmulatorState d =>
    d.pc < 2 ^ 16 ∧ d.i < 2 ^ 16 ∧ d.reg.length = 16 ∧ d.op < 2 ^ 16
  | AppEvents.ClientMessage (ClientMessage.KeyInput k) => k < 2 ^ 16

/-- A zeroed 64×32 frame buffer (4 bytes per pixel). -/
def sampleFrame : List Nat := List.replicate 8192 0

/-- An input state with no key pressed. -/
def sampleInput : InputState := ⟨false, 0, 0⟩

/-- An input state whose local capture has exactly CHIP-8 key 0 pressed. -/
def inputKeyZero : InputState := ⟨false, 1, 0⟩

/-- An input state whose local capture has exactly CHIP-8 key 1 pressed. -/
def inputKeyOne : InputState := ⟨false, 2, 0⟩

/-- A generic post-fetch hardware state used by the concrete evaluations:
zeroed memory and registers, `pc = 0x202`. -/
def testHw : Hardware :=
  { memory := List.replicate 4096 0
    stack := List.replicate 32 0
    stack_frame := 0
    i := 0
    registers := List.replicate 16 0
    pc := 0x202
    delay_timer := 0
    sound_timer := 0
    generation := Generation.Super
    display_sync := true }

/-- `testHw` with `reg[0] = 0x01`, `reg[1] = 0x04` and legacy generation. -/
def c6Legacy : Hardware :=
  { testHw with generation := Generation.COSMAC,
                registers := ((List.replicate 16 0).set 0 1).set 1 4 }

/-- `testHw` with `reg[0] = 0x01`, `reg[1] = 0x04` and extended generation. -/
def c6Super : Hardware :=
  { testHw with registers := ((List.replicate 16 0).set 0 1).set 1 4 }

/-- `testHw` with `reg[0] = 1` (so key-instruction operand `reg[x] % 16`
is key 1 when `x = 0`). -/
def c4Hw : Hardware :=
  { testHw with registers := (List.replicate 16 0).set 0 1 }

/-- The spec §8 scenario program: `0x00E0` (clear screen) then `0x1200`
(jump to 0x200), loaded at `0x200` on default hardware. -/
def c7Hw : Hardware := Hardware.default.load_program [0x00, 0xE0, 0x12, 0x00]

/-- `testHw` with a `0xD123` draw instruction at `pc = 0x202` and the
display credit absent. -/
def c1Hw : Hardware :=
  { testHw with memory := (testHw.memory.set 0x202 0xd1).set 0x203 0x23, display_sync := false }

/-- `testHw` with `reg[0] = 0xFF`, `reg[1] = 0x04`. -/
def c5Hw : Hardware :=
  { testHw with registers := ((List.replicate 16 0).set 0 0xff).set 1 4 }

theorem getD_set_self (l : List Nat) (i v : Nat) (h : i < l.length) :
    (l.set i v).getD i 0 = v := by
  simp [List.getD_eq_getElem?_getD, List.getElem?_set_eq_of_lt _ h]

theorem getD_set_other (l : List Nat) (i j v : Nat) (h : i ≠ j) :
    (l.set i v).getD j 0 = l.getD j 0 := by
  simp [List.getD_eq_getElem?_getD, List.getElem?_set_ne h]

/-- C1: with `display_sync = false`, the draw arm only rewinds `pc` by two:
decoding any `D`-opcode leaves every other component of the state unchanged
and emits nothing; at cycle level the fetch's `pc += 2` and the rewind
cancel, so the very same state recurs and the instruction is retried. -/
theorem draw_without_credit_rewinds_pc_only (hw : Hardware) (frame : List Nat)
    (input : InputState) (rand : Nat) (hsync : hw.display_sync = false)
    (hpc : hw.pc < 65536) :
    (∀ x y n nn nnn : Nat,
      decodeMatch hw 0xd x y n nn nnn frame input rand =
        some ({ hw with pc := wrapSub16 hw.pc 2 }, [])) ∧
    (hw.memory.getD hw.pc 0 < 256 → hw.memory.getD (hw.pc + 1) 0 < 256 →
      hw.memory.getD hw.pc 0 / 16 = 0xd →
      runHardwareCycle hw frame input rand = some (hw, [])) := by
  have hdm : ∀ hw2 : Hardware, hw2.display_sync = false → ∀ x y n nn nnn : Nat,
      decodeMatch hw2 0xd x y n nn nnn frame input rand =
        some ({ hw2 with pc := wrapSub16 hw2.pc 2 }, []) := by
    intro hw2 hs2 x y n nn nnn
    simp [decodeMatch, hs2]
  refine ⟨hdm hw hsync, ?_⟩
  intro h0 h1 hop
  show Hardware.decode { hw with pc := wrap16 (hw.pc + 2) }
      (hw.memory.getD hw.pc 0 * 256 + hw.memory.getD (hw.pc + 1) 0) frame input rand =
    some (hw, [])
  show decodeMatch { hw with pc := wrap16 (hw.pc + 2) }
      ((hw.memory.getD hw.pc 0 * 256 + hw.memory.getD (hw.pc + 1) 0) / 256 % 256 / 16)
      ((hw.memory.getD hw.pc 0 * 256 + hw.memory.getD (hw.pc + 1) 0) / 256 % 256 % 16)
      ((hw.memory.getD hw.pc 0 * 256 + hw.memory.getD (hw.pc + 1) 0) % 256 / 16)
      ((hw.memory.getD hw.pc 0 * 256 + hw.memory.getD (hw.pc + 1) 0) % 256 % 16)
      ((hw.memory.getD hw.pc 0 * 256 + hw.memory.getD (hw.pc + 1) 0) % 256)
      ((hw.memory.getD hw.pc 0 * 256 + hw.memory.getD (hw.pc + 1) 0) % 4096)
      frame input rand = some (hw, [])
  have e1 : (hw.memory.getD hw.pc 0 * 256 + hw.memory.getD (hw.pc + 1) 0) / 256 % 256 / 16 = 13 := by
    omega
  rw [e1, hdm { hw with pc := wrap16 (hw.pc + 2) } hsync]
  show some (({ hw with pc := wrapSub16 (wrap16 (hw.pc + 2)) 2 } : Hardware), ([] : List AppEvents)) =
    some (hw, [])
  have epc : wrapSub16 (wrap16 (hw.pc + 2)) 2 = hw.pc := by
    unfold wrapSub16 wrap16
    omega
  rw [epc]

/-- Witness for `draw_without_credit_rewinds_pc_only`: the concrete state
`c1Hw` retries its draw instruction with no net change. -/
theorem draw_without_credit_rewinds_pc_only_witness :
    c1Hw.display_sync = false ∧
    runHardwareCycle c1Hw sampleFrame sampleInput 0 = some (c1Hw, []) := by
  refine ⟨rfl, ?_⟩
  exact (draw_without_credit_rewinds_pc_only c1Hw sampleFrame sampleInput 0 rfl
    (by decide)).2 (by decide) (by decide) (by decide)

/-- C5: for `x ≠ 15`, opcode `8XY4` stores `(reg[x] + reg[y]) mod 256` and
sets register 15 to 1 exactly on carry, and opcode `8XY5` stores
`(reg[x] − reg[y]) mod 256` and sets register 15 to 1 exactly when
`reg[x] ≥ reg[y]`. -/
theorem alu_add_sub_flags (hw : Hardware) (x y nn nnn : Nat) (frame : List Nat)
    (input : InputState) (rand : Nat) (hx : x < 16) (hx15 : x ≠ 15)
    (hlen : hw.registers.length = 16) :
    ((decodeMatch hw 0x8 x y 0x4 nn nnn frame input rand).map
        (fun p => (p.1.registers.getD x 0, p.1.registers.getD 15 0, p.2)) =
      some ((hw.registers.getD x 0 + hw.registers.getD y 0) % 256,
            if 255 < hw.registers.getD x 0 + hw.registers.getD y 0 then 1 else 0, [])) ∧
    ((decodeMatch hw 0x8 x y 0x5 nn nnn frame input rand).map
        (fun p => (p.1.registers.getD x 0, p.1.registers.getD 15 0, p.2)) =
      some ((((hw.registers.getD x 0 : Int) - hw.registers.getD y 0) % 256).toNat,
            if hw.registers.getD y 0 ≤ hw.registers.getD x 0 then 1 else 0, [])) := by
  constructor
  · simp only [decodeMatch, Hardware.set_flag]
    norm_num
    rw [List.getElem?_set_ne (show (15 : Nat) ≠ x from by omega),
        List.getElem?_set_eq_of_lt _ (show x < hw.registers.length from by omega),
        List.getElem?_set_eq_of_lt _ (show (15 : Nat) < _ from by simp [hlen])]
    exact ⟨rfl, rfl⟩
  · simp only [decodeMatch, Hardware.set_flag]
    norm_num
    rw [List.getElem?_set_ne (show (15 : Nat) ≠ x from by omega),
        List.getElem?_set_eq_of_lt _ (show x < hw.registers.length from by omega),
        List.getElem?_set_eq_of_lt _ (show (15 : Nat) < _ from by simp [hlen])]
    refine ⟨?_, rfl⟩
    simp only [Option.getD_some]
    unfold wrapSub8
    omega

/-- Witness for `alu_add_sub_flags`: `reg[0] = 0xFF`, `reg[1] = 0x04`. -/
theorem alu_add_sub_flags_witness :
    (0 : Nat) < 16 ∧
    (decodeMatch c5Hw 0x8 0 1 0x4 0 0 sampleFrame sampleInput 0).map
        (fun p => (p.1.registers.getD 0 0, p.1.registers.getD 15 0, p.2)) =
      some (3, 1, []) := by
  refine ⟨by decide, ?_⟩
  have h := (alu_add_sub_flags c5Hw 0 1 0 0 sampleFrame sampleInput 0
    (by decide) (by decide) (by decide)).1
  rw [h]
  decide

/-- C6: opcode `8XY6` is generation-dependent: legacy (COSMAC) mode copies
`reg[y]` into `reg[x]` before shifting right, extended (Super) mode shifts
`reg[x]` in place; from `reg[x] = 0x01`, `reg[y] = 0x04` the two modes end
with different `reg[x]` (2 versus 0). -/
theorem shift_right_generation_quirk (hw : Hardware) (x y nn nnn : Nat)
    (frame : List Nat) (input : InputState) (rand : Nat)
    (hx : x < 16) (hx15 : x ≠ 15) (hlen : hw.registers.length = 16) :
    (hw.generation = Generation.COSMAC →
      (decodeMatch hw 0x8 x y 0x6 nn nnn frame input rand).map
          (fun p => (p.1.registers.getD x 0, p.2)) =
        some (hw.registers.getD y 0 / 2, [])) ∧
    (hw.generation = Generation.Super →
      (decodeMatch hw 0x8 x y 0x6 nn nnn frame input rand).map
          (fun p => (p.1.registers.getD x 0, p.2)) =
        some (hw.registers.getD x 0 / 2, [])) ∧
    (Hardware.decode c6Legacy 0x8016 sampleFrame sampleInput 0).map
        (fun p => p.1.registers.getD 0 0) = some 2 ∧
    (Hardware.decode c6Super 0x8016 sampleFrame sampleInput 0).map
        (fun p => p.1.registers.getD 0 0) = some 0 ∧
    (2 : Nat) ≠ 0 := by
  refine ⟨?_, ?_, by decide, by decide, by decide⟩
  · intro hgen
    simp only [decodeMatch, Hardware.set_flag]
    norm_num [hgen]
    rw [List.getElem?_set_ne (show (15 : Nat) ≠ x from by omega),
        List.getElem?_set_eq_of_lt _ (show x < _ from by simpa [hlen] using hx),
        List.getElem?_set_eq_of_lt _ (show x < hw.registers.length from by omega)]
    simp [Nat.shiftRight_eq_div_pow]
  · intro hgen
    simp only [decodeMatch, Hardware.set_flag]
    norm_num [hgen]
    rw [List.getElem?_set_ne (show (15 : Nat) ≠ x from by omega),
        List.getElem?_set_eq_of_lt _ (show x < _ from by simpa [hlen] using hx)]
    simp [Nat.shiftRight_eq_div_pow]

/-- Witness for `shift_right_generation_quirk` at `c6Legacy`
(`reg[0] = 1`, `reg[1] = 4`, legacy mode). -/
theorem shift_right_generation_quirk_witness :
    c6Legacy.generation = Generation.COSMAC ∧
    (decodeMatch c6Legacy 0x8 0 1 0x6 0x16 0x016 sampleFrame sampleInput 0).map
        (fun p => (p.1.registers.getD 0 0, p.2)) =
      some (c6Legacy.registers.getD 1 0 / 2, []) := by
  refine ⟨rfl, ?_⟩
  exact (shift_right_generation_quirk c6Legacy 0 1 0x16 0x016 sampleFrame sampleInput 0
    (by decide) (by decide) (by decide)).1 rfl

/-- C10: with the display credit present, the draw arm reduces the sprite
origin modulo the 64×32 screen, and that same wrapped origin is used both
for the collision read against the frame buffer and in the emitted
draw-sprite effect; the origin is therefore always on screen. -/
theorem draw_origin_wrapped (hw : Hardware) (x y n nn nnn : Nat)
    (frame : List Nat) (input : InputState) (rand : Nat)
    (hsync : hw.display_sync = true) :
    decodeMatch hw 0xd x y n nn nnn frame input rand =
      some (({ hw with display_sync := false }).set_flag
              (drawCollision frame (hw.registers.getD x 0 % 64)
                (hw.registers.getD y 0 % 32) (readSprite hw n)),
            [AppEvents.DrawSprite (readSprite hw n) (hw.registers.getD x 0 % 64)
              (hw.registers.getD y 0 % 32)]) ∧
    hw.registers.getD x 0 % 64 < 64 ∧ hw.registers.getD y 0 % 32 < 32 := by
  refine ⟨?_, Nat.mod_lt _ (by omega), Nat.mod_lt _ (by omega)⟩
  simp [decodeMatch, hsync, SCREEN_WIDTH, SCREEN_HEIGHT]

/-- Witness for `draw_origin_wrapped`: drawing at `reg[0] = 70, reg[1] = 33`
(both off screen) emits a draw effect at the wrapped origin `(6, 1)`. -/
theorem draw_origin_wrapped_witness :
    ({ testHw with registers := ((List.replicate 16 0).set 0 70).set 1 33 } : Hardware).display_sync = true ∧
    (decodeMatch { testHw with registers := ((List.replicate 16 0).set 0 70).set 1 33 }
        0xd 0 1 2 0x12 0x012 sampleFrame sampleInput 0).map
      (fun p => p.2) = some [AppEvents.DrawSprite
        (readSprite { testHw with registers := ((List.replicate 16 0).set 0 70).set 1 33 } 2) 6 1] := by
  refine ⟨rfl, ?_⟩
  have h := (draw_origin_wrapped
    { testHw with registers := ((List.replicate 16 0).set 0 70).set 1 33 }
    0 1 2 0x12 0x012 sampleFrame sampleInput 0 rfl).1
  rw [h]
  decide

/-- C3 (failing half): executing `F00A` while only key 0 is pressed
(`keys = 0b1`) stores `keys.leading_zeros() = 15` into `reg[x]` — not the
lowest-numbered pressed key index 0 that the claim requires — and does not
rewind `pc`. -/
theorem block_keypress_stores_leading_zeros :
    inputKeyZero.keys = 1 ∧
    (Hardware.decode testHw 0xF00A sampleFrame inputKeyZero 0).map
        (fun p => (p.1.registers.getD 0 0, p.1.pc, p.2)) = some (15, 0x202, []) := by
  exact ⟨by decide, by decide⟩

/-- C4: with `reg[0] = 1` and CHIP-8 key 1 pressed (`keys = 0b10`), `E09E`
does not skip (the source tests `keys & (1 << key) == 1`, which can only
hold for key 0) even though the claim requires a skip, and `E0A1` skips
even though the claim forbids it; the decoder also consults only the local
`keys` mask, never the merged `pressed()` mask. -/
theorem skip_key_compares_bit_to_one :
    c4Hw.registers.getD 0 0 = 1 ∧
    inputKeyOne.pressed &&& (1 <<< 1) ≠ 0 ∧
    Hardware.decode c4Hw 0xE09E sampleFrame inputKeyOne 0 = some (c4Hw, []) ∧
    (Hardware.decode c4Hw 0xE0A1 sampleFrame inputKeyOne 0).map (fun p => p.1.pc) =
      some 0x204 := by
  refine ⟨by decide, by decide, rfl, by decide⟩

/-- C7 counterexample: after exactly one fetch-decode cycle of the
`0x00E0 / 0x1200` program, exactly one clear-screen effect has been
emitted but `pc = 0x202`, not `0x200` as the claim states (the jump has
not executed yet). -/
theorem clear_jump_scenario_one_cycle_counterexample :
    (runCycles 1 c7Hw sampleFrame sampleInput 0).map (fun p => (p.1.pc, p.2)) =
      some (0x202, [AppEvents.ClearScreen]) ∧ (0x202 : Nat) ≠ 0x200 := by
  exact ⟨by decide, by decide⟩

/-- C7 amended: after two fetch-decode cycles of the `0x00E0 / 0x1200`
program, exactly one clear-screen effect has been emitted and `pc = 0x200`
again. -/
theorem clear_jump_scenario_two_cycles :
    (runCycles 2 c7Hw sampleFrame sampleInput 0).map (fun p => (p.1.pc, p.2)) =
      some (0x200, [AppEvents.ClearScreen]) := by
  decide

set_option maxHeartbeats 2000000 in
/-- The decoder's fault arm is reached exactly off the documented table,
stated on the four already-extracted nibbles. -/
theorem decodeMatch_none_iff (hw : Hardware) (op x y n nn nnn : Nat)
    (frame : List Nat) (input : InputState) (rand : Nat) :
    decodeMatch hw op x y n nn nnn frame input rand = none ↔
      ¬ specTableMatches op x y n := by
  constructor
  · intro hnone hs
    rcases hs with h|h|h|h|h|h|h|h|h|h|h|h|h|h|h|h|h|h|h|h|h|h|h|h|h|h
    · obtain ⟨rfl, rfl, rfl, rfl⟩ := h
      simp [decodeMatch] at hnone
    · obtain ⟨rfl, rfl, rfl, rfl⟩ := h
      simp [decodeMatch] at hnone
    · subst h
      simp [decodeMatch] at hnone
    · subst h
      simp [decodeMatch] at hnone
    · subst h
      simp [decodeMatch] at hnone
    · subst h
      simp [decodeMatch] at hnone
    · obtain ⟨rfl, rfl⟩ := h
      simp [decodeMatch] at hnone
    · subst h
      simp [decodeMatch] at hnone
    · subst h
      simp [decodeMatch] at hnone
    · obtain ⟨rfl, hn⟩ := h
      rcases hn with hn | rfl
      · interval_cases n <;> simp [decodeMatch] at hnone
      · simp [decodeMatch] at hnone
    · obtain ⟨rfl, rfl⟩ := h
      simp [decodeMatch] at hnone
    · subst h
      simp [decodeMatch] at hnone
    · subst h
      simp [decodeMatch] at hnone
    · subst h
      simp [decodeMatch] at hnone
    · subst h
      cases hds : hw.display_sync <;> simp [decodeMatch, hds] at hnone
    · obtain ⟨rfl, rfl, rfl⟩ := h
      simp [decodeMatch] at hnone
    · obtain ⟨rfl, rfl, rfl⟩ := h
      simp [decodeMatch] at hnone
    · obtain ⟨rfl, rfl, rfl⟩ := h
      simp [decodeMatch] at hnone
    · obtain ⟨rfl, rfl, rfl⟩ := h
      simp [decodeMatch] at hnone
    · obtain ⟨rfl, rfl, rfl⟩ := h
      simp [decodeMatch] at hnone
    · obtain ⟨rfl, rfl, rfl⟩ := h
      simp [decodeMatch] at hnone
    · obtain ⟨rfl, rfl, rfl⟩ := h
      by_cases hk : input.keys = 0 <;> simp [decodeMatch, hk] at hnone
    · obtain ⟨rfl, rfl, rfl⟩ := h
      simp [decodeMatch] at hnone
    · obtain ⟨rfl, rfl, rfl⟩ := h
      simp [decodeMatch] at hnone
    · obtain ⟨rfl, rfl, rfl⟩ := h
      simp [decodeMatch] at hnone
    · obtain ⟨rfl, rfl, rfl⟩ := h
      simp [decodeMatch] at hnone
  · intro hns
    have d1 : ¬(op = 0x0 ∧ x = 0x0 ∧ y = 0xe ∧ n = 0x0) := fun hc => hns (Or.inl hc)
    have d2 : ¬(op = 0x0 ∧ x = 0x0 ∧ y = 0xe ∧ n = 0xe) := fun hc => hns (Or.inr (Or.inl hc))
    have d3 : ¬(op = 0x1) := fun hc => hns (Or.inr (Or.inr (Or.inl hc)))
    have d4 : ¬(op = 0x2) := fun hc => hns (Or.inr (Or.inr (Or.inr (Or.inl hc))))
    have d5 : ¬(op = 0x3) := fun hc => hns (Or.inr (Or.inr (Or.inr (Or.inr (Or.inl hc)))))
    have d6 : ¬(op = 0x4) := fun hc => hns (Or.inr (Or.inr (Or.inr (Or.inr (Or.inr (Or.inl hc))))))
    have d7 : ¬(op = 0x5 ∧ n = 0x0) := fun hc => hns (Or.inr (Or.inr (Or.inr (Or.inr (Or.inr (Or.inr (Or.inl hc)))))))
    have d8 : ¬(op = 0x6) := fun hc => hns (Or.inr (Or.inr (Or.inr (Or.inr (Or.inr (Or.inr (Or.inr (Or.inl hc))))))))
    have d9 : ¬(op = 0x7) := fun hc => hns (Or.inr (Or.inr (Or.inr (Or.inr (Or.inr (Or.inr (Or.inr (Or.inr (Or.inl hc)))))))))
    have d10 : ¬(op = 0x8 ∧ (n ≤ 0x7 ∨ n = 0xe)) := fun hc => hns (Or.inr (Or.inr (Or.inr (Or.inr (Or.inr (Or.inr (Or.inr (Or.inr (Or.inr (Or.inl hc))))))))))
    have d11 : ¬(op = 0x9 ∧ n = 0x0) := fun hc => hns (Or.inr (Or.inr (Or.inr (Or.inr (Or.inr (Or.inr (Or.inr (Or.inr (Or.inr (Or.inr (Or.inl hc)))))))))))
    have d12 : ¬(op = 0xa) := fun hc => hns (Or.inr (Or.inr (Or.inr (Or.inr (Or.inr (Or.inr (Or.inr (Or.inr (Or.inr (Or.inr (Or.inr (Or.inl hc))))))))))))
    have d13 : ¬(op = 0xb) := fun hc => hns (Or.inr (Or.inr (Or.inr (Or.inr (Or.inr (Or.inr (Or.inr (Or.inr (Or.inr (Or.inr (Or.inr (Or.inr (Or.inl hc)))))))))))))
    have d14 : ¬(op = 0xc) := fun hc => hns (Or.inr (Or.inr (Or.inr (Or.inr (Or.inr (Or.inr (Or.inr (Or.inr (Or.inr (Or.inr (Or.inr (Or.inr (Or.inr (Or.inl hc))))))))))))))
    have d15 : ¬(op = 0xd) := fun hc => hns (Or.inr (Or.inr (Or.inr (Or.inr (Or.inr (Or.inr (Or.inr (Or.inr (Or.inr (Or.inr (Or.inr (Or.inr (Or.inr (Or.inr (Or.inl hc)))))))))))))))
    have d16 : ¬(op = 0xe ∧ y = 0x9 ∧ n = 0xe) := fun hc => hns (Or.inr (Or.inr (Or.inr (Or.inr (Or.inr (Or.inr (Or.inr (Or.inr (Or.inr (Or.inr (Or.inr (Or.inr (Or.inr (Or.inr (Or.inr (Or.inl hc))))))))))))))))
    have d17 : ¬(op = 0xe ∧ y = 0xa ∧ n = 0x1) := fun hc => hns (Or.inr (Or.inr (Or.inr (Or.inr (Or.inr (Or.inr (Or.inr (Or.inr (Or.inr (Or.inr (Or.inr (Or.inr (Or.inr (Or.inr (Or.inr (Or.inr (Or.inl hc)))))))))))))))))
    have d18 : ¬(op = 0xf ∧ y = 0x0 ∧ n = 0x7) := fun hc => hns (Or.inr (Or.inr (Or.inr (Or.inr (Or.inr (Or.inr (Or.inr (Or.inr (Or.inr (Or.inr (Or.inr (Or.inr (Or.inr (Or.inr (Or.inr (Or.inr (Or.inr (Or.inl hc))))))))))))))))))
    have d19 : ¬(op = 0xf ∧ y = 0x1 ∧ n = 0x5) := fun hc => hns (Or.inr (Or.inr (Or.inr (Or.inr (Or.inr (Or.inr (Or.inr (Or.inr (Or.inr (Or.inr (Or.inr (Or.inr (Or.inr (Or.inr (Or.inr (Or.inr (Or.inr (Or.inr (Or.inl hc)))))))))))))))))))
    have d20 : ¬(op = 0xf ∧ y = 0x1 ∧ n = 0x8) := fun hc => hns (Or.inr (Or.inr (Or.inr (Or.inr (Or.inr (Or.inr (Or.inr (Or.inr (Or.inr (Or.inr (Or.inr (Or.inr (Or.inr (Or.inr (Or.inr (Or.inr (Or.inr (Or.inr (Or.inr (Or.inl hc))))))))))))))))))))
    have d21 : ¬(op = 0xf ∧ y = 0x1 ∧ n = 0xe) := fun hc => hns (Or.inr (Or.inr (Or.inr (Or.inr (Or.inr (Or.inr (Or.inr (Or.inr (Or.inr (Or.inr (Or.inr (Or.inr (Or.inr (Or.inr (Or.inr (Or.inr (Or.inr (Or.inr (Or.inr (Or.inr (Or.inl hc)))))))))))))))))))))
    have d22 : ¬(op = 0xf ∧ y = 0x0 ∧ n = 0xa) := fun hc => hns (Or.inr (Or.inr (Or.inr (Or.inr (Or.inr (Or.inr (Or.inr (Or.inr (Or.inr (Or.inr (Or.inr (Or.inr (Or.inr (Or.inr (Or.inr (Or.inr (Or.inr (Or.inr (Or.inr (Or.inr (Or.inr (Or.inl hc))))))))))))))))))))))
    have d23 : ¬(op = 0xf ∧ y = 0x2 ∧ n = 0x9) := fun hc => hns (Or.inr (Or.inr (Or.inr (Or.inr (Or.inr (Or.inr (Or.inr (Or.inr (Or.inr (Or.inr (Or.inr (Or.inr (Or.inr (Or.inr (Or.inr (Or.inr (Or.inr (Or.inr (Or.inr (Or.inr (Or.inr (Or.inr (Or.inl hc)))))))))))))))))))))))
    have d24 : ¬(op = 0xf ∧ y = 0x3 ∧ n = 0x3) := fun hc => hns (Or.inr (Or.inr (Or.inr (Or.inr (Or.inr (Or.inr (Or.inr (Or.inr (Or.inr (Or.inr (Or.inr (Or.inr (Or.inr (Or.inr (Or.inr (Or.inr (Or.inr (Or.inr (Or.inr (Or.inr (Or.inr (Or.inr (Or.inr (Or.inl hc))))))))))))))))))))))))
    have d25 : ¬(op = 0xf ∧ y = 0x5 ∧ n = 0x5) := fun hc => hns (Or.inr (Or.inr (Or.inr (Or.inr (Or.inr (Or.inr (Or.inr (Or.inr (Or.inr (Or.inr (Or.inr (Or.inr (Or.inr (Or.inr (Or.inr (Or.inr (Or.inr (Or.inr (Or.inr (Or.inr (Or.inr (Or.inr (Or.inr (Or.inr (Or.inl hc)))))))))))))))))))))))))
    have d26 : ¬(op = 0xf ∧ y = 0x6 ∧ n = 0x5) := fun hc => hns (Or.inr (Or.inr (Or.inr (Or.inr (Or.inr (Or.inr (Or.inr (Or.inr (Or.inr (Or.inr (Or.inr (Or.inr (Or.inr (Or.inr (Or.inr (Or.inr (Or.inr (Or.inr (Or.inr (Or.inr (Or.inr (Or.inr (Or.inr (Or.inr (Or.inr hc)))))))))))))))))))))))))
    have e80 : ¬(op = 0x8 ∧ n = 0x0) := fun hc => d10 ⟨hc.1, Or.inl (by omega)⟩
    have e81 : ¬(op = 0x8 ∧ n = 0x1) := fun hc => d10 ⟨hc.1, Or.inl (by omega)⟩
    have e82 : ¬(op = 0x8 ∧ n = 0x2) := fun hc => d10 ⟨hc.1, Or.inl (by omega)⟩
    have e83 : ¬(op = 0x8 ∧ n = 0x3) := fun hc => d10 ⟨hc.1, Or.inl (by omega)⟩
    have e84 : ¬(op = 0x8 ∧ n = 0x4) := fun hc => d10 ⟨hc.1, Or.inl (by omega)⟩
    have e85 : ¬(op = 0x8 ∧ n = 0x5) := fun hc => d10 ⟨hc.1, Or.inl (by omega)⟩
    have e86 : ¬(op = 0x8 ∧ n = 0x6) := fun hc => d10 ⟨hc.1, Or.inl (by omega)⟩
    have e87 : ¬(op = 0x8 ∧ n = 0x7) := fun hc => d10 ⟨hc.1, Or.inl (by omega)⟩
    have e8e : ¬(op = 0x8 ∧ n = 0xe) := fun hc => d10 ⟨hc.1, Or.inr hc.2⟩
    show decodeMatch hw op x y n nn nnn frame input rand = none
    simp only [decodeMatch]
    rw [if_neg d1, if_neg d2, if_neg d3, if_neg d4, if_neg d5, if_neg d6, if_neg d7, if_neg d8, if_neg d9, if_neg e80, if_neg e81, if_neg e82, if_neg e83, if_neg e84, if_neg e85, if_neg e86, if_neg e87, if_neg e8e, if_neg d11, if_neg d12, if_neg d13, if_neg d14, if_neg d15, if_neg d16, if_neg d17, if_neg d18, if_neg d19, if_neg d20, if_neg d21, if_neg d22, if_neg d23, if_neg d24, if_neg d25, if_neg d26]

/-- C8: for every 16-bit instruction word, `Hardware::decode` reaches the
fatal unimplemented-opcode arm if and only if the word matches none of the
opcode-table patterns documented in the spec. -/
theorem unimplemented_opcode_fault_domain (hw : Hardware) (frame : List Nat)
    (input : InputState) (rand : Nat) (instr : Nat) :
    Hardware.decode hw instr frame input rand = none ↔
      ¬ specTableMatchesInstr instr := by
  show decodeMatch hw (instr / 256 % 256 / 16) (instr / 256 % 256 % 16)
      (instr % 256 / 16) (instr % 256 % 16) (instr % 256) (instr % 4096)
      frame input rand = none ↔ ¬ specTableMatchesInstr instr
  unfold specTableMatchesInstr
  exact decodeMatch_none_iff hw _ _ _ _ (instr % 256) (instr % 4096) frame input rand
set_option maxHeartbeats 2000000 in
/-- Every successful decode step either performs a credit-consuming draw
(possible only with the credit present, clearing it and emitting exactly
one draw-sprite effect) or leaves `display_sync` unchanged and emits no
draw-sprite effect; and no decode step ever emits a wrapped
`DisplaySynced` control event. -/
theorem decodeMatch_sync_draws (hw : Hardware) (op x y n nn nnn : Nat)
    (frame : List Nat) (input : InputState) (rand : Nat)
    (hw' : Hardware) (evs : List AppEvents)
    (h : decodeMatch hw op x y n nn nnn frame input rand = some (hw', evs)) :
    ((hw.display_sync = true ∧ hw'.display_sync = false ∧ countDraws evs = 1) ∨
      (hw'.display_sync = hw.display_sync ∧ countDraws evs = 0)) ∧
    (∀ e ∈ evs, e ≠ AppEvents.EmulatorEvent EmulatorEvents.DisplaySynced) := by
  simp only [decodeMatch] at h
  by_cases c1 : op = 0x0 ∧ x = 0x0 ∧ y = 0xe ∧ n = 0x0
  · rw [if_pos c1] at h
    (try split at h) <;>
      simp only [Option.some.injEq, Prod.mk.injEq] at h <;>
      obtain ⟨rfl, rfl⟩ := h <;>
      first
        | exact ⟨Or.inr ⟨rfl, rfl⟩, by simp⟩
        | (refine ⟨Or.inr ⟨?_, rfl⟩, by simp⟩; cases hw.generation <;> rfl)
  rw [if_neg c1] at h
  by_cases c2 : op = 0x0 ∧ x = 0x0 ∧ y = 0xe ∧ n = 0xe
  · rw [if_pos c2] at h
    (try split at h) <;>
      simp only [Option.some.injEq, Prod.mk.injEq] at h <;>
      obtain ⟨rfl, rfl⟩ := h <;>
      first
        | exact ⟨Or.inr ⟨rfl, rfl⟩, by simp⟩
        | (refine ⟨Or.inr ⟨?_, rfl⟩, by simp⟩; cases hw.generation <;> rfl)
  rw [if_neg c2] at h
  by_cases c3 : op = 0x1
  · rw [if_pos c3] at h
    (try split at h) <;>
      simp only [Option.some.injEq, Prod.mk.injEq] at h <;>
      obtain ⟨rfl, rfl⟩ := h <;>
      first
        | exact ⟨Or.inr ⟨rfl, rfl⟩, by simp⟩
        | (refine ⟨Or.inr ⟨?_, rfl⟩, by simp⟩; cases hw.generation <;> rfl)
  rw [if_neg c3] at h
  by_cases c4 : op = 0x2
  · rw [if_pos c4] at h
    (try split at h) <;>
      simp only [Option.some.injEq, Prod.mk.injEq] at h <;>
      obtain ⟨rfl, rfl⟩ := h <;>
      first
        | exact ⟨Or.inr ⟨rfl, rfl⟩, by simp⟩
        | (refine ⟨Or.inr ⟨?_, rfl⟩, by simp⟩; cases hw.generation <;> rfl)
  rw [if_neg c4] at h
  by_cases c5 : op = 0x3
  · rw [if_pos c5] at h
    (try split at h) <;>
      simp only [Option.some.injEq, Prod.mk.injEq] at h <;>
      obtain ⟨rfl, rfl⟩ := h <;>
      first
        | exact ⟨Or.inr ⟨rfl, rfl⟩, by simp⟩
        | (refine ⟨Or.inr ⟨?_, rfl⟩, by simp⟩; cases hw.generation <;> rfl)
  rw [if_neg c5] at h
  by_cases c6 : op = 0x4
  · rw [if_pos c6] at h
    (try split at h) <;>
      simp only [Option.some.injEq, Prod.mk.injEq] at h <;>
      obtain ⟨rfl, rfl⟩ := h <;>
      first
        | exact ⟨Or.inr ⟨rfl, rfl⟩, by simp⟩
        | (refine ⟨Or.inr ⟨?_, rfl⟩, by simp⟩; cases hw.generation <;> rfl)
  rw [if_neg c6] at h
  by_cases c7 : op = 0x5 ∧ n = 0x0
  · rw [if_pos c7] at h
    (try split at h) <;>
      simp only [Option.some.injEq, Prod.mk.injEq] at h <;>
      obtain ⟨rfl, rfl⟩ := h <;>
      first
        | exact ⟨Or.inr ⟨rfl, rfl⟩, by simp⟩
        | (refine ⟨Or.inr ⟨?_, rfl⟩, by simp⟩; cases hw.generation <;> rfl)
  rw [if_neg c7] at h
  by_cases c8 : op = 0x6
  · rw [if_pos c8] at h
    (try split at h) <;>
      simp only [Option.some.injEq, Prod.mk.injEq] at h <;>
      obtain ⟨rfl, rfl⟩ := h <;>
      first
        | exact ⟨Or.inr ⟨rfl, rfl⟩, by simp⟩
        | (refine ⟨Or.inr ⟨?_, rfl⟩, by simp⟩; cases hw.generation <;> rfl)
  rw [if_neg c8] at h
  by_cases c9 : op = 0x7
  · rw [if_pos c9] at h
    (try split at h) <;>
      simp only [Option.some.injEq, Prod.mk.injEq] at h <;>
      obtain ⟨rfl, rfl⟩ := h <;>
      first
        | exact ⟨Or.inr ⟨rfl, rfl⟩, by simp⟩
        | (refine ⟨Or.inr ⟨?_, rfl⟩, by simp⟩; cases hw.generation <;> rfl)
  rw [if_neg c9] at h
  by_cases c10 : op = 0x8 ∧ n = 0x0
  · rw [if_pos c10] at h
    (try split at h) <;>
      simp only [Option.some.injEq, Prod.mk.injEq] at h <;>
      obtain ⟨rfl, rfl⟩ := h <;>
      first
        | exact ⟨Or.inr ⟨rfl, rfl⟩, by simp⟩
        | (refine ⟨Or.inr ⟨?_, rfl⟩, by simp⟩; cases hw.generation <;> rfl)
  rw [if_neg c10] at h
  by_cases c11 : op = 0x8 ∧ n = 0x1
  · rw [if_pos c11] at h
    (try split at h) <;>
      simp only [Option.some.injEq, Prod.mk.injEq] at h <;>
      obtain ⟨rfl, rfl⟩ := h <;>
      first
        | exact ⟨Or.inr ⟨rfl, rfl⟩, by simp⟩
        | (refine ⟨Or.inr ⟨?_, rfl⟩, by simp⟩; cases hw.generation <;> rfl)
  rw [if_neg c11] at h
  by_cases c12 : op = 0x8 ∧ n = 0x2
  · rw [if_pos c12] at h
    (try split at h) <;>
      simp only [Option.some.injEq, Prod.mk.injEq] at h <;>
      obtain ⟨rfl, rfl⟩ := h <;>
      first
        | exact ⟨Or.inr ⟨rfl, rfl⟩, by simp⟩
        | (refine ⟨Or.inr ⟨?_, rfl⟩, by simp⟩; cases hw.generation <;> rfl)
  rw [if_neg c12] at h
  by_cases c13 : op = 0x8 ∧ n = 0x3
  · rw [if_pos c13] at h
    (try split at h) <;>
      simp only [Option.some.injEq, Prod.mk.injEq] at h <;>
      obtain ⟨rfl, rfl⟩ := h <;>
      first
        | exact ⟨Or.inr ⟨rfl, rfl⟩, by simp⟩
        | (refine ⟨Or.inr ⟨?_, rfl⟩, by simp⟩; cases hw.generation <;> rfl)
  rw [if_neg c13] at h
  by_cases c14 : op = 0x8 ∧ n = 0x4
  · rw [if_pos c14] at h
    (try split at h) <;>
      simp only [Option.some.injEq, Prod.mk.injEq] at h <;>
      obtain ⟨rfl, rfl⟩ := h <;>
      first
        | exact ⟨Or.inr ⟨rfl, rfl⟩, by simp⟩
        | (refine ⟨Or.inr ⟨?_, rfl⟩, by simp⟩; cases hw.generation <;> rfl)
  rw [if_neg c14] at h
  by_cases c15 : op = 0x8 ∧ n = 0x5
  · rw [if_pos c15] at h
    (try split at h) <;>
      simp only [Option.some.injEq, Prod.mk.injEq] at h <;>
      obtain ⟨rfl, rfl⟩ := h <;>
      first
        | exact ⟨Or.inr ⟨rfl, rfl⟩, by simp⟩
        | (refine ⟨Or.inr ⟨?_, rfl⟩, by simp⟩; cases hw.generation <;> rfl)
  rw [if_neg c15] at h
  by_cases c16 : op = 0x8 ∧ n = 0x6
  · rw [if_pos c16] at h
    (try split at h) <;>
      simp only [Option.some.injEq, Prod.mk.injEq] at h <;>
      obtain ⟨rfl, rfl⟩ := h <;>
      first
        | exact ⟨Or.inr ⟨rfl, rfl⟩, by simp⟩
        | (refine ⟨Or.inr ⟨?_, rfl⟩, by simp⟩; cases hw.generation <;> rfl)
  rw [if_neg c16] at h
  by_cases c17 : op = 0x8 ∧ n = 0x7
  · rw [if_pos c17] at h
    (try split at h) <;>
      simp only [Option.some.injEq, Prod.mk.injEq] at h <;>
      obtain ⟨rfl, rfl⟩ := h <;>
      first
        | exact ⟨Or.inr ⟨rfl, rfl⟩, by simp⟩
        | (refine ⟨Or.inr ⟨?_, rfl⟩, by simp⟩; cases hw.generation <;> rfl)
  rw [if_neg c17] at h
  by_cases c18 : op = 0x8 ∧ n = 0xe
  · rw [if_pos c18] at h
    (try split at h) <;>
      simp only [Option.some.injEq, Prod.mk.injEq] at h <;>
      obtain ⟨rfl, rfl⟩ := h <;>
      first
        | exact ⟨Or.inr ⟨rfl, rfl⟩, by simp⟩
        | (refine ⟨Or.inr ⟨?_, rfl⟩, by simp⟩; cases hw.generation <;> rfl)
  rw [if_neg c18] at h
  by_cases c19 : op = 0x9 ∧ n = 0x0
  · rw [if_pos c19] at h
    (try split at h) <;>
      simp only [Option.some.injEq, Prod.mk.injEq] at h <;>
      obtain ⟨rfl, rfl⟩ := h <;>
      first
        | exact ⟨Or.inr ⟨rfl, rfl⟩, by simp⟩
        | (refine ⟨Or.inr ⟨?_, rfl⟩, by simp⟩; cases hw.generation <;> rfl)
  rw [if_neg c19] at h
  by_cases c20 : op = 0xa
  · rw [if_pos c20] at h
    (try split at h) <;>
      simp only [Option.some.injEq, Prod.mk.injEq] at h <;>
      obtain ⟨rfl, rfl⟩ := h <;>
      first
        | exact ⟨Or.inr ⟨rfl, rfl⟩, by simp⟩
        | (refine ⟨Or.inr ⟨?_, rfl⟩, by simp⟩; cases hw.generation <;> rfl)
  rw [if_neg c20] at h
  by_cases c21 : op = 0xb
  · rw [if_pos c21] at h
    (try split at h) <;>
      simp only [Option.some.injEq, Prod.mk.injEq] at h <;>
      obtain ⟨rfl, rfl⟩ := h <;>
      first
        | exact ⟨Or.inr ⟨rfl, rfl⟩, by simp⟩
        | (refine ⟨Or.inr ⟨?_, rfl⟩, by simp⟩; cases hw.generation <;> rfl)
  rw [if_neg c21] at h
  by_cases c22 : op = 0xc
  · rw [if_pos c22] at h
    (try split at h) <;>
      simp only [Option.some.injEq, Prod.mk.injEq] at h <;>
      obtain ⟨rfl, rfl⟩ := h <;>
      first
        | exact ⟨Or.inr ⟨rfl, rfl⟩, by simp⟩
        | (refine ⟨Or.inr ⟨?_, rfl⟩, by simp⟩; cases hw.generation <;> rfl)
  rw [if_neg c22] at h
  by_cases c23 : op = 0xd
  · rw [if_pos c23] at h
    cases hds : hw.display_sync
    · rw [if_pos (show (!hw.display_sync) = true by simp [hds])] at h
      simp only [Option.some.injEq, Prod.mk.injEq] at h
      obtain ⟨rfl, rfl⟩ := h
      exact ⟨Or.inr ⟨hds, rfl⟩, by simp⟩
    · rw [if_neg (show ¬(!hw.display_sync) = true by simp [hds])] at h
      simp only [Option.some.injEq, Prod.mk.injEq] at h
      obtain ⟨rfl, rfl⟩ := h
      exact ⟨Or.inl ⟨rfl, rfl, rfl⟩, by simp⟩
  rw [if_neg c23] at h
  by_cases c24 : op = 0xe ∧ y = 0x9 ∧ n = 0xe
  · rw [if_pos c24] at h
    (try split at h) <;>
      simp only [Option.some.injEq, Prod.mk.injEq] at h <;>
      obtain ⟨rfl, rfl⟩ := h <;>
      first
        | exact ⟨Or.inr ⟨rfl, rfl⟩, by simp⟩
        | (refine ⟨Or.inr ⟨?_, rfl⟩, by simp⟩; cases hw.generation <;> rfl)
  rw [if_neg c24] at h
  by_cases c25 : op = 0xe ∧ y = 0xa ∧ n = 0x1
  · rw [if_pos c25] at h
    (try split at h) <;>
      simp only [Option.some.injEq, Prod.mk.injEq] at h <;>
      obtain ⟨rfl, rfl⟩ := h <;>
      first
        | exact ⟨Or.inr ⟨rfl, rfl⟩, by simp⟩
        | (refine ⟨Or.inr ⟨?_, rfl⟩, by simp⟩; cases hw.generation <;> rfl)
  rw [if_neg c25] at h
  by_cases c26 : op = 0xf ∧ y = 0x0 ∧ n = 0x7
  · rw [if_pos c26] at h
    (try split at h) <;>
      simp only [Option.some.injEq, Prod.mk.injEq] at h <;>
      obtain ⟨rfl, rfl⟩ := h <;>
      first
        | exact ⟨Or.inr ⟨rfl, rfl⟩, by simp⟩
        | (refine ⟨Or.inr ⟨?_, rfl⟩, by simp⟩; cases hw.generation <;> rfl)
  rw [if_neg c26] at h
  by_cases c27 : op = 0xf ∧ y = 0x1 ∧ n = 0x5
  · rw [if_pos c27] at h
    (try split at h) <;>
      simp only [Option.some.injEq, Prod.mk.injEq] at h <;>
      obtain ⟨rfl, rfl⟩ := h <;>
      first
        | exact ⟨Or.inr ⟨rfl, rfl⟩, by simp⟩
        | (refine ⟨Or.inr ⟨?_, rfl⟩, by simp⟩; cases hw.generation <;> rfl)
  rw [if_neg c27] at h
  by_cases c28 : op = 0xf ∧ y = 0x1 ∧ n = 0x8
  · rw [if_pos c28] at h
    (try split at h) <;>
      simp only [Option.some.injEq, Prod.mk.injEq] at h <;>
      obtain ⟨rfl, rfl⟩ := h <;>
      first
        | exact ⟨Or.inr ⟨rfl, rfl⟩, by simp⟩
        | (refine ⟨Or.inr ⟨?_, rfl⟩, by simp⟩; cases hw.generation <;> rfl)
  rw [if_neg c28] at h
  by_cases c29 : op = 0xf ∧ y = 0x1 ∧ n = 0xe
  · rw [if_pos c29] at h
    (try split at h) <;>
      simp only [Option.some.injEq, Prod.mk.injEq] at h <;>
      obtain ⟨rfl, rfl⟩ := h <;>
      first
        | exact ⟨Or.inr ⟨rfl, rfl⟩, by simp⟩
        | (refine ⟨Or.inr ⟨?_, rfl⟩, by simp⟩; cases hw.generation <;> rfl)
  rw [if_neg c29] at h
  by_cases c30 : op = 0xf ∧ y = 0x0 ∧ n = 0xa
  · rw [if_pos c30] at h
    (try split at h) <;>
      simp only [Option.some.injEq, Prod.mk.injEq] at h <;>
      obtain ⟨rfl, rfl⟩ := h <;>
      first
        | exact ⟨Or.inr ⟨rfl, rfl⟩, by simp⟩
        | (refine ⟨Or.inr ⟨?_, rfl⟩, by simp⟩; cases hw.generation <;> rfl)
  rw [if_neg c30] at h
  by_cases c31 : op = 0xf ∧ y = 0x2 ∧ n = 0x9
  · rw [if_pos c31] at h
    (try split at h) <;>
      simp only [Option.some.injEq, Prod.mk.injEq] at h <;>
      obtain ⟨rfl, rfl⟩ := h <;>
      first
        | exact ⟨Or.inr ⟨rfl, rfl⟩, by simp⟩
        | (refine ⟨Or.inr ⟨?_, rfl⟩, by simp⟩; cases hw.generation <;> rfl)
  rw [if_neg c31] at h
  by_cases c32 : op = 0xf ∧ y = 0x3 ∧ n = 0x3
  · rw [if_pos c32] at h
    (try split at h) <;>
      simp only [Option.some.injEq, Prod.mk.injEq] at h <;>
      obtain ⟨rfl, rfl⟩ := h <;>
      first
        | exact ⟨Or.inr ⟨rfl, rfl⟩, by simp⟩
        | (refine ⟨Or.inr ⟨?_, rfl⟩, by simp⟩; cases hw.generation <;> rfl)
  rw [if_neg c32] at h
  by_cases c33 : op = 0xf ∧ y = 0x5 ∧ n = 0x5
  · rw [if_pos c33] at h
    (try split at h) <;>
      simp only [Option.some.injEq, Prod.mk.injEq] at h <;>
      obtain ⟨rfl, rfl⟩ := h <;>
      first
        | exact ⟨Or.inr ⟨rfl, rfl⟩, by simp⟩
        | (refine ⟨Or.inr ⟨?_, rfl⟩, by simp⟩; cases hw.generation <;> rfl)
  rw [if_neg c33] at h
  by_cases c34 : op = 0xf ∧ y = 0x6 ∧ n = 0x5
  · rw [if_pos c34] at h
    (try split at h) <;>
      simp only [Option.some.injEq, Prod.mk.injEq] at h <;>
      obtain ⟨rfl, rfl⟩ := h <;>
      first
        | exact ⟨Or.inr ⟨rfl, rfl⟩, by simp⟩
        | (refine ⟨Or.inr ⟨?_, rfl⟩, by simp⟩; cases hw.generation <;> rfl)
  rw [if_neg c34] at h
  exact Option.noConfusion h

/-- `runHardwareCycle` inherits the sync/draw dichotomy from the decoder:
fetch does not touch `display_sync`. -/
theorem runHardwareCycle_sync_draws (hw : Hardware) (frame : List Nat)
    (input : InputState) (rand : Nat) (hw' : Hardware) (evs : List AppEvents)
    (h : runHardwareCycle hw frame input rand = some (hw', evs)) :
    ((hw.display_sync = true ∧ hw'.display_sync = false ∧ countDraws evs = 1) ∨
      (hw'.display_sync = hw.display_sync ∧ countDraws evs = 0)) ∧
    (∀ e ∈ evs, e ≠ AppEvents.EmulatorEvent EmulatorEvents.DisplaySynced) :=
  decodeMatch_sync_draws { hw with pc := wrap16 (hw.pc + 2) } _ _ _ _ _ _
    frame input rand hw' evs h

/-- `Chip8::handle_event` leaves the hardware untouched on every control
event other than `DisplaySynced`. -/
theorem handleEventHw_not_synced (e : EmulatorEvents) (hw : Hardware)
    (h : isSynced e = false) : handleEventHw e hw = hw := by
  cases e <;> simp_all [handleEventHw, isSynced]

theorem countDraws_append (l1 l2 : List AppEvents) :
    countDraws (l1 ++ l2) = countDraws l1 + countDraws l2 := by
  simp [countDraws, List.filter_append]

theorem countSynced_append (l1 l2 : List EmulatorEvents) :
    countSynced (l1 ++ l2) = countSynced l1 + countSynced l2 := by
  simp [countSynced, List.filter_append]

theorem countDraws_cons (e : AppEvents) (l : List AppEvents) :
    countDraws (e :: l) = (if isDrawSprite e then 1 else 0) + countDraws l := by
  cases hd : isDrawSprite e <;> simp [countDraws, List.filter_cons, hd, Nat.add_comm]

theorem countSynced_cons (e : EmulatorEvents) (l : List EmulatorEvents) :
    countSynced (e :: l) = (if isSynced e then 1 else 0) + countSynced l := by
  cases hd : isSynced e <;> simp [countSynced, List.filter_cons, hd, Nat.add_comm]

/-- One step of the VM-loop/renderer system preserves the credit-protocol
invariant. -/
theorem sysInv_step (r : VmRole) (s s' : SysState) (hstep : SysStep r s s')
    (hinv : SysInv s) : SysInv s' := by
  obtain ⟨hA, hB, hC, hD⟩ := hinv
  cases hstep with
  | vmCycle frame input rand hw' evs hrun =>
    obtain ⟨hdisj, hne⟩ := runHardwareCycle_sync_draws _ _ _ _ _ _ hrun
    refine ⟨?_, ?_, ?_, ?_⟩ <;>
      simp only []
    · rcases hdisj with ⟨hs1, hs2, hs3⟩ | ⟨hs1, hs2⟩
      · have h0 : s.unacked = 0 := hA.mp hs1
        rw [hs2, hs3, h0]
        simp
      · rw [hs1, hs2]
        simpa using hA
    · rcases hdisj with ⟨hs1, hs2, hs3⟩ | ⟨hs1, hs2⟩
      · have h0 : s.unacked = 0 := hA.mp hs1
        omega
      · omega
    · rw [countDraws_append]
      rcases hdisj with ⟨hs1, hs2, hs3⟩ | ⟨hs1, hs2⟩
      · have h0 : s.unacked = 0 := hA.mp hs1
        omega
      · omega
    · intro e he
      rcases List.mem_append.mp he with h1 | h2
      · exact hD e h1
      · exact hne e h2
  | vmControl e rest hctrl =>
    have hcs : countSynced s.controls =
        (if isSynced e then 1 else 0) + countSynced rest := by
      rw [hctrl, countSynced_cons]
    cases hse : isSynced e
    · rw [handleEventHw_not_synced e s.hw hse]
      rw [hse] at hcs
      simp at hcs
      refine ⟨?_, ?_, ?_, hD⟩
      · simpa [hse] using hA
      · simpa [hse] using hB
      · simp only [hse]
        simp
        omega
    · have he' : e = EmulatorEvents.DisplaySynced := by
        cases e <;> simp_all [isSynced]
      subst he'
      rw [hse] at hcs
      simp at hcs
      have h2 : s.unacked = 1 := by
        have h1 : 1 ≤ countSynced s.controls := by omega
        omega
      refine ⟨?_, ?_, ?_, hD⟩
      · simp [handleEventHw, isSynced, h2]
      · simp [isSynced]
        omega
      · simp [isSynced]
        omega
  | vmTick =>
    exact ⟨hA, hB, hC, hD⟩
  | vmDebug d =>
    refine ⟨hA, hB, ?_, ?_⟩
    · rw [countDraws_append]
      simpa [countDraws, isDrawSprite] using hC
    · intro e he
      rcases List.mem_append.mp he with h1 | h2
      · exact hD e h1
      · simp at h2
        subst h2
        simp
  | appEffect ev rest heff =>
    have hcd : countDraws s.effects =
        (if isDrawSprite ev then 1 else 0) + countDraws rest := by
      rw [heff, countDraws_cons]
    have hDrest : ∀ e ∈ rest, e ≠ AppEvents.EmulatorEvent EmulatorEvents.DisplaySynced := by
      intro e he
      exact hD e (heff ▸ List.mem_cons_of_mem ev he)
    refine ⟨hA, hB, ?_, hDrest⟩
    show countDraws rest + countSynced (s.controls ++ appForward r ev) ≤ s.unacked
    rw [countSynced_append]
    have hvs : countSynced (appForward r ev) ≤ if isDrawSprite ev then 1 else 0 := by
      cases ev with
      | DrawSprite sprite x y => cases r <;> simp [appForward, viewSend, countSynced, isDrawSprite, isSynced, List.filter_cons, List.filter_nil]
      | EmulatorEvent e =>
        have hne : e ≠ EmulatorEvents.DisplaySynced := by
          intro hcontra
          subst hcontra
          exact hD _ (heff ▸ List.mem_cons_self _ _) rfl
        cases r
        · simp [appForward, viewSend, countSynced, isDrawSprite, isSynced, List.filter_cons, List.filter_nil]
        · cases e <;> first | exact absurd rfl hne | simp [appForward, viewSend, countSynced, isDrawSprite, isSynced, List.filter_cons, List.filter_nil]
      | Nop => cases r <;> simp [appForward, viewSend, countSynced, isDrawSprite, isSynced, List.filter_cons, List.filter_nil]
      | ClearScreen => cases r <;> simp [appForward, viewSend, countSynced, isDrawSprite, isSynced, List.filter_cons, List.filter_nil]
      | SpawnEmulator kind g dbg path fps => cases r <;> simp [appForward, viewSend, countSynced, isDrawSprite, isSynced, List.filter_cons, List.filter_nil]
      | DebugEmulatorState d => cases r <;> simp [appForward, viewSend, countSynced, isDrawSprite, isSynced, List.filter_cons, List.filter_nil]
      | ClientMessage m => cases r <;> simp [appForward, viewSend, countSynced, isDrawSprite, isSynced, List.filter_cons, List.filter_nil]
    cases hd : isDrawSprite ev <;> rw [hd] at hcd hvs <;> simp at hcd hvs <;> omega
  | uiEvent e huia =>
    refine ⟨hA, hB, ?_, ?_⟩
    · rw [countDraws_append]
      simpa [countDraws, isDrawSprite] using hC
    · intro ev hev
      rcases List.mem_append.mp hev with h1 | h2
      · exact hD ev h1
      · simp at h2
        subst h2
        intro hcontra
        have : e = EmulatorEvents.DisplaySynced := by
          injection hcontra
        subst this
        simp [uiAllowed] at huia
  | clientKeys m =>
    refine ⟨hA, hB, ?_, ?_⟩
    · rw [countDraws_append]
      simpa [countDraws, isDrawSprite] using hC
    · intro ev hev
      rcases List.mem_append.mp hev with h1 | h2
      · exact hD ev h1
      · simp at h2
        subst h2
        simp

/-- C2: in every reachable state of the VM-loop/renderer system, in any
role with a local VM loop, `display_sync` is true exactly when no emitted
draw-sprite effect is still awaiting its `DisplaySynced` acknowledgment. -/
theorem display_sync_credit_invariant (r : VmRole) (g : Generation)
    (program : List Nat) (s : SysState) (hreach : SysReachable r g program s) :
    s.hw.display_sync = true ↔ s.unacked = 0 := by
  have hreach' : Relation.ReflTransGen (SysStep r) (initSys g program) s := hreach
  clear hreach
  have hinv : SysInv s := by
    induction hreach' with
    | refl =>
      exact ⟨⟨fun _ => rfl, fun _ => rfl⟩, Nat.zero_le 1, Nat.le_refl 0,
        fun e he => absurd he (List.not_mem_nil e)⟩
    | tail hsteps hstep ih =>
      exact sysInv_step r _ _ hstep ih
  exact hinv.1

/-- Witness for `display_sync_credit_invariant`: the initial `Single`-role
state is reachable and satisfies the invariant (credit present, nothing
outstanding). -/
theorem display_sync_credit_invariant_witness :
    SysReachable VmRole.Single Generation.Super [] (initSys Generation.Super []) ∧
    ((initSys Generation.Super []).hw.display_sync = true ↔
      (initSys Generation.Super []).unacked = 0) :=
  ⟨Relation.ReflTransGen.refl,
   display_sync_credit_invariant VmRole.Single Generation.Super [] _
     Relation.ReflTransGen.refl⟩

theorem natToLE_length (k v : Nat) : (natToLE k v).length = k := by
  induction k generalizing v with
  | zero => rfl
  | succ k ih => simp [natToLE, ih]

theorem natFromLE_append (k v : Nat) (r : List Nat) (h : v < 256 ^ k) :
    natFromLE k (natToLE k v ++ r) = some (v, r) := by
  induction k generalizing v with
  | zero =>
    have hv : v = 0 := by simpa using h
    subst hv
    rfl
  | succ k ih =>
    have hlt : v < 256 * 256 ^ k := by
      rw [Nat.mul_comm]
      simpa [Nat.pow_succ] using h
    have hdiv : v / 256 < 256 ^ k := Nat.div_lt_of_lt_mul hlt
    simp only [natToLE, List.cons_append, natFromLE, List.append_eq]
    rw [ih (v / 256) hdiv]
    simp [Nat.mod_add_div]

theorem readBytes_append (k : Nat) (bs r : List Nat) (h : bs.length = k) :
    readBytes k (bs ++ r) = some (bs, r) := by
  subst h
  simp [readBytes, List.take_left, List.drop_left]

theorem foldlBE (k : Nat) : ∀ v acc : Nat, v < 256 ^ k →
    ((natToLE k v).reverse).foldl (fun a b => a * 256 + b) acc = acc * 256 ^ k + v := by
  induction k with
  | zero =>
    intro v acc h
    have hv : v = 0 := by simpa using h
    subst hv
    simp [natToLE]
  | succ k ih =>
    intro v acc h
    have hlt : v < 256 * 256 ^ k := by
      rw [Nat.mul_comm]
      simpa [Nat.pow_succ] using h
    have hdiv : v / 256 < 256 ^ k := Nat.div_lt_of_lt_mul hlt
    simp only [natToLE, List.reverse_cons, List.foldl_append, ih (v / 256) acc hdiv]
    simp only [List.foldl_cons, List.foldl_nil]
    rw [Nat.pow_succ]
    have hmd : 256 * (v / 256) + v % 256 = v := by omega
    calc (acc * 256 ^ k + v / 256) * 256 + v % 256
        = acc * (256 ^ k * 256) + (256 * (v / 256) + v % 256) := by ring
      _ = acc * (256 ^ k * 256) + v := by rw [hmd]

theorem natFromBE8_append (v : Nat) (r : List Nat) (h : v < 2 ^ 64) :
    natFromBE8 (natToBE8 v ++ r) = some (v, r) := by
  have h' : v < 256 ^ 8 := by
    norm_num
    omega
  have hlen : (natToBE8 v).length = 8 := by simp [natToBE8, natToLE_length]
  unfold natFromBE8
  rw [if_pos (by simp [hlen])]
  have ht : (natToBE8 v ++ r).take 8 = natToBE8 v := by
    rw [← hlen]
    exact List.take_left _ _
  have hd : (natToBE8 v ++ r).drop 8 = r := by
    rw [← hlen]
    exact List.drop_left _ _
  rw [ht, hd]
  unfold natToBE8
  rw [foldlBE 8 v 0 h']
  simp

theorem desBytes_ser (s r : List Nat) (h : s.length < 2 ^ 64) :
    desBytes (serBytes s ++ r) = some (s, r) := by
  have h' : s.length < 256 ^ 8 := by
    norm_num
    omega
  unfold desBytes serBytes
  rw [List.append_assoc, natFromLE_append 8 s.length (s ++ r) h']
  simp [readBytes_append s.length s r rfl]

theorem desColor32_ser (c : Color32) (r : List Nat) :
    desColor32 (serColor32 c ++ r) = some (c, r) := rfl

theorem desBool_ser (b : Bool) (r : List Nat) :
    desBool ((if b then 1 else 0) :: r) = some (b, r) := by
  cases b <;> rfl

theorem desGeneration_ser (g : Generation) (r : List Nat) :
    desGeneration (serGeneration g ++ r) = some (g, r) := by
  cases g <;>
    (unfold desGeneration serGeneration
     rw [natFromLE_append _ _ _ (by norm_num)]) <;> rfl

theorem desEmulatorEvents_ser (e : EmulatorEvents) (r : List Nat)
    (hwf : wfAppEvents (AppEvents.EmulatorEvent e)) :
    desEmulatorEvents (serEmulatorEvents e ++ r) = some (e, r) := by
  cases e with
  | ChangeColor c =>
    unfold serEmulatorEvents desEmulatorEvents
    rw [List.append_assoc, natFromLE_append 4 0 _ (by norm_num)]
    simp [desColor32_ser]
  | FpsChange fps =>
    have hb : fps < 256 ^ 4 := by
      simp only [wfAppEvents] at hwf
      norm_num at hwf ⊢
      exact hwf
    unfold serEmulatorEvents desEmulatorEvents
    rw [List.append_assoc, natFromLE_append 4 1 _ (by norm_num)]
    simp [natFromLE_append 4 fps r hb]
  | NextDebugCycle k =>
    have hb : k < 256 ^ 8 := by
      simp only [wfAppEvents] at hwf
      norm_num at hwf ⊢
      exact hwf
    unfold serEmulatorEvents desEmulatorEvents
    rw [List.append_assoc, natFromLE_append 4 2 _ (by norm_num)]
    simp [natFromLE_append 8 k r hb]
  | SetDebug b =>
    unfold serEmulatorEvents desEmulatorEvents
    rw [List.append_assoc, natFromLE_append 4 3 _ (by norm_num)]
    simp [desBool_ser]
  | QuitEmulator =>
    unfold serEmulatorEvents desEmulatorEvents
    rw [natFromLE_append 4 4 _ (by norm_num)]
    rfl
  | DisplaySynced =>
    unfold serEmulatorEvents desEmulatorEvents
    rw [natFromLE_append 4 5 _ (by norm_num)]
    rfl

theorem desHostIp_ser (ip : HostIp) (r : List Nat) (h : wfIp ip) :
    desHostIp (serHostIp ip ++ r) = some (ip, r) := by
  cases ip with
  | Empty =>
    unfold serHostIp desHostIp
    rw [natFromLE_append 4 0 _ (by norm_num)]
    rfl
  | NotFound =>
    unfold serHostIp desHostIp
    rw [natFromLE_append 4 1 _ (by norm_num)]
    rfl
  | Ip s =>
    have hb : s.length < 2 ^ 64 := by
      have h' : s.length < 2 ^ 32 := h
      omega
    unfold serHostIp desHostIp
    rw [List.append_assoc, natFromLE_append 4 2 _ (by norm_num)]
    simp [desBytes_ser s r hb]

theorem desEmulatorKind_ser (kind : EmulatorKind) (r : List Nat) (h : wfKind kind) :
    desEmulatorKind (serEmulatorKind kind ++ r) = some (kind, r) := by
  cases kind with
  | Single =>
    unfold serEmulatorKind desEmulatorKind
    rw [natFromLE_append 4 0 _ (by norm_num)]
    rfl
  | Server ip =>
    have hip : wfIp ip := h
    unfold serEmulatorKind desEmulatorKind
    rw [List.append_assoc, natFromLE_append 4 1 _ (by norm_num)]
    simp [desHostIp_ser ip r hip]
  | Client s =>
    have hb : s.length < 2 ^ 64 := by
      have h' : s.length < 2 ^ 32 := h
      omega
    unfold serEmulatorKind desEmulatorKind
    rw [List.append_assoc, natFromLE_append 4 2 _ (by norm_num)]
    simp [desBytes_ser s r hb]

theorem desOptBytes_ser (path : Option (List Nat)) (r : List Nat) (h : wfPath path) :
    desOptBytes (serOptBytes path ++ r) = some (path, r) := by
  cases path with
  | none => rfl
  | some s =>
    have hb : s.length < 2 ^ 64 := by
      have h' : s.length < 2 ^ 32 := h
      omega
    unfold serOptBytes desOptBytes
    simp [desBytes_ser s r hb]

theorem desDebugState_ser (d : DebugState) (r : List Nat)
    (hpc : d.pc < 2 ^ 16) (hi : d.i < 2 ^ 16) (hreg : d.reg.length = 16)
    (hop : d.op < 2 ^ 16) :
    desDebugState (serDebugState d ++ r) = some (d, r) := by
  have h2 : (2:Nat) ^ 16 = 256 ^ 2 := by norm_num
  rw [h2] at hpc hi hop
  unfold serDebugState desDebugState
  simp only [List.append_assoc]
  rw [natFromLE_append 2 d.pc _ hpc]
  simp only []
  rw [natFromLE_append 2 d.i _ hi]
  simp only []
  rw [readBytes_append 16 d.reg _ hreg]
  simp only []
  rw [natFromLE_append 2 d.op _ hop]

theorem desClientMessage_ser (m : ClientMessage) (r : List Nat)
    (h : match m with | ClientMessage.KeyInput k => k < 2 ^ 16) :
    desClientMessage (serClientMessage m ++ r) = some (m, r) := by
  cases m with
  | KeyInput k =>
    have hb : k < 256 ^ 2 := by
      simp at h
      norm_num
      omega
    unfold serClientMessage desClientMessage
    rw [List.append_assoc, natFromLE_append 4 0 _ (by norm_num)]
    simp [natFromLE_append 2 k r hb]

theorem desAppEvents_ser (e : AppEvents) (r : List Nat) (hwf : wfAppEvents e) :
    desAppEvents (serAppEvents e ++ r) = some (e, r) := by
  cases e with
  | Nop =>
    unfold serAppEvents desAppEvents
    rw [natFromLE_append 4 0 _ (by norm_num)]
    rfl
  | EmulatorEvent ev =>
    unfold serAppEvents desAppEvents
    rw [List.append_assoc, natFromLE_append 4 1 _ (by norm_num)]
    simp [desEmulatorEvents_ser ev r hwf]
  | ClearScreen =>
    unfold serAppEvents desAppEvents
    rw [natFromLE_append 4 2 _ (by norm_num)]
    rfl
  | DrawSprite sprite x y =>
    have hs : sprite.length = 16 := hwf
    unfold serAppEvents desAppEvents
    simp only [List.append_assoc]
    rw [natFromLE_append 4 3 _ (by norm_num)]
    simp [readBytes_append 16 sprite (x :: y :: r) hs]
  | SpawnEmulator kind g dbg path fps =>
    obtain ⟨hkind, hpath, hfps⟩ := hwf
    have hfps' : fps < 256 ^ 4 := by
      norm_num at hfps ⊢
      exact hfps
    unfold serAppEvents desAppEvents
    simp only [List.append_assoc]
    rw [natFromLE_append 4 4 _ (by norm_num)]
    simp [hkind, hpath, desEmulatorKind_ser, desGeneration_ser, desBool_ser,
          desOptBytes_ser, natFromLE_append 4 fps r hfps']
  | DebugEmulatorState d =>
    obtain ⟨hpc, hi, hreg, hop⟩ := hwf
    unfold serAppEvents desAppEvents
    rw [List.append_assoc, natFromLE_append 4 5 _ (by norm_num)]
    simp [desDebugState_ser d r hpc hi hreg hop]
  | ClientMessage m =>
    unfold serAppEvents desAppEvents
    rw [List.append_assoc, natFromLE_append 4 6 _ (by norm_num)]
    simp [desClientMessage_ser m r hwf]

theorem serBytes_length (s : List Nat) : (serBytes s).length = 8 + s.length := by
  simp [serBytes, natToLE_length]

theorem readBytes_all (l : List Nat) : readBytes l.length l = some (l, []) := by
  have h := readBytes_append l.length l [] rfl
  simpa using h

theorem serAppEvents_length_lt (e : AppEvents) (hwf : wfAppEvents e) :
    (serAppEvents e).length < 2 ^ 64 := by
  cases e with
  | Nop => simp [serAppEvents, natToLE_length]
  | EmulatorEvent ev =>
    cases ev <;> simp [serAppEvents, serEmulatorEvents, serColor32, natToLE_length]
  | ClearScreen => simp [serAppEvents, natToLE_length]
  | DrawSprite sprite x y =>
    have hs : sprite.length = 16 := hwf
    simp [serAppEvents, natToLE_length, hs]
  | SpawnEmulator kind g dbg path fps =>
    obtain ⟨hkind, hpath, hfps⟩ := hwf
    have h1 : (serEmulatorKind kind).length < 2 ^ 33 := by
      cases kind with
      | Single => simp [serEmulatorKind, natToLE_length]
      | Server ip =>
        cases ip with
        | Ip s =>
          have hsl : s.length < 2 ^ 32 := hkind
          simp [serEmulatorKind, serHostIp, serBytes_length, natToLE_length]
          omega
        | Empty => simp [serEmulatorKind, serHostIp, natToLE_length]
        | NotFound => simp [serEmulatorKind, serHostIp, natToLE_length]
      | Client s =>
        have hsl : s.length < 2 ^ 32 := hkind
        simp [serEmulatorKind, serBytes_length, natToLE_length]
        omega
    have h2 : (serOptBytes path).length < 2 ^ 33 := by
      cases path with
      | none => simp [serOptBytes]
      | some s =>
        have hsl : s.length < 2 ^ 32 := hpath
        simp [serOptBytes, serBytes_length, natToLE_length]
        omega
    cases g <;> cases dbg <;>
      simp [serAppEvents, serGeneration, natToLE_length] <;> omega
  | DebugEmulatorState d =>
    obtain ⟨hpc, hi, hreg, hop⟩ := hwf
    simp [serAppEvents, serDebugState, natToLE_length, hreg]
  | ClientMessage m =>
    cases m <;> simp [serAppEvents, serClientMessage, natToLE_length]

/-- C9: framing any value of the `AppEvents` union as its payload's byte
length in 8-byte big-endian followed by the serialized payload
(`HostView::send_over_tcp`), then reading it back (decode the length
prefix, take exactly that many payload bytes, deserialize), yields the
original value; moreover the decoded length prefix equals the payload's
byte length exactly. The well-formedness hypothesis states the field
ranges the Rust types guarantee (`u8`/`u16`/`u32` fields, 16-byte
arrays, address-space-bounded strings). -/
theorem frame_roundtrip (e : AppEvents) (hwf : wfAppEvents e) :
    readFramed (frameMessage e) = some e ∧
    natFromBE8 (frameMessage e) =
      some ((serAppEvents e).length, serAppEvents e) := by
  have hlen : (serAppEvents e).length < 2 ^ 64 := serAppEvents_length_lt e hwf
  have hbe : natFromBE8 (frameMessage e) =
      some ((serAppEvents e).length, serAppEvents e) := by
    unfold frameMessage
    exact natFromBE8_append _ _ hlen
  refine ⟨?_, hbe⟩
  have hdes : desAppEvents (serAppEvents e) = some (e, []) := by
    have h := desAppEvents_ser e [] hwf
    simpa using h
  unfold readFramed
  rw [hbe]
  simp [readBytes_all, hdes]

theorem frame_roundtrip_witness :
    readFramed (frameMessage (AppEvents.DrawSprite (List.replicate 16 0) 3 5)) =
      some (AppEvents.DrawSprite (List.replicate 16 0) 3 5) ∧
    natFromBE8 (frameMessage (AppEvents.DrawSprite (List.replicate 16 0) 3 5)) =
      some ((serAppEvents (AppEvents.DrawSprite (List.replicate 16 0) 3 5)).length,
        serAppEvents (AppEvents.DrawSprite (List.replicate 16 0) 3 5)) :=
  frame_roundtrip (AppEvents.DrawSprite (List.replicate 16 0) 3 5)
    (show (List.replicate 16 0).length = 16 by decide)
